import Mathlib

/-!
Verification of the SPNV panorama projector (projector.cpp) against its
natural-language specification.  The C++ code is shallowly embedded over the
real numbers: float arithmetic becomes exact real arithmetic, std trigonometric
functions become their Mathlib counterparts, and a C style cast from a floating
value to int becomes truncation toward zero.
-/

open Real

open scoped Classical

noncomputable section

namespace SPNV

/-- Truncation toward zero: the semantics of the C++ static_cast from a
floating-point value to int used throughout projector.cpp. -/
def itrunc (x : ℝ) : ℤ := if x < 0 then ⌈x⌉ else ⌊x⌋

/-- Two-argument arctangent with the C library convention: atan2 y x is the
angle of the point (x, y). -/
def atan2 (y x : ℝ) : ℝ :=
  if 0 < x then arctan (y / x)
  else if x < 0 then (if 0 ≤ y then arctan (y / x) + π else arctan (y / x) - π)
  else if 0 < y then π / 2 else if y < 0 then -(π / 2) else 0

/-- Rounded comparison of two floats within 4 decimal places, from the
anonymous namespace of projector.cpp:
(static_cast(pLeft * 10000) + 1) < static_cast(pRight * 10000). -/
def roundedCompareSmaller (pLeft pRight : ℝ) : Prop :=
  itrunc (pLeft * 10000) + 1 < itrunc (pRight * 10000)

/-- Panorama projection type from SceneMetaData. -/
inductive PanoramaProjection where
  | CentralCylindrical
  | Equirectangular
deriving DecidableEq

/-- State of a Projector instance.  Immutable metadata-derived members are the
constructor inputs; fovTL, fovBR, fovCentHor, the zoom minima and the 360
degree flag are recomputed by definitions below exactly as the constructor
initialiser list computes them once. -/
structure Projector where
  projectionType : PanoramaProjection
  picUncroppedSize : ℤ × ℤ
  picUncroppedFOV : ℝ × ℝ
  picCropPosTL : ℤ × ℤ
  picCropPosBR : ℤ × ℤ
  f : ℝ
  zoom : ℝ
  viewOffsetPhi : ℝ
  viewOffsetTheta : ℝ
  displaySize : ℤ × ℤ
  displayFOV : ℝ × ℝ
  staticDisplayTrafosX : List ℝ
  staticDisplayTrafosY : List ℝ
  panoSphereSize : ℤ × ℤ
  panoSphereRemapHystMaxF : ℝ

namespace Projector

/-- Size of the cropped picture, derived from the crop corners. -/
def picSize (s : Projector) : ℤ × ℤ :=
  (s.picCropPosBR.1 - s.picCropPosTL.1, s.picCropPosBR.2 - s.picCropPosTL.2)

/-- Projector::calcTopLeftFOV: angles of the cropped picture's top left
corner, by projection type. -/
def calcTopLeftFOV (s : Projector) : ℝ × ℝ :=
  match s.projectionType with
  | .CentralCylindrical =>
      (s.picUncroppedFOV.1 * (s.picCropPosTL.1 : ℝ) / (s.picUncroppedSize.1 : ℝ),
       arctan (tan (s.picUncroppedFOV.2 / 2) / ((s.picUncroppedSize.2 : ℝ) / 2) *
               ((s.picUncroppedSize.2 : ℝ) / 2 - (s.picCropPosTL.2 : ℝ))))
  | .Equirectangular =>
      (s.picUncroppedFOV.1 * (s.picCropPosTL.1 : ℝ) / (s.picUncroppedSize.1 : ℝ),
       s.picUncroppedFOV.2 / 2 * ((s.picUncroppedSize.2 : ℝ) / 2 - (s.picCropPosTL.2 : ℝ)) /
         ((s.picUncroppedSize.2 : ℝ) / 2))

/-- Projector::calcBottomRightFOV: angles of the cropped picture's bottom
right corner, by projection type. -/
def calcBottomRightFOV (s : Projector) : ℝ × ℝ :=
  match s.projectionType with
  | .CentralCylindrical =>
      (s.picUncroppedFOV.1 * (s.picCropPosBR.1 : ℝ) / (s.picUncroppedSize.1 : ℝ),
       -arctan (tan (s.picUncroppedFOV.2 / 2) / ((s.picUncroppedSize.2 : ℝ) / 2) *
                ((s.picCropPosBR.2 : ℝ) - (s.picUncroppedSize.2 : ℝ) / 2)))
  | .Equirectangular =>
      (s.picUncroppedFOV.1 * (s.picCropPosBR.1 : ℝ) / (s.picUncroppedSize.1 : ℝ),
       -(s.picUncroppedFOV.2 / 2 *
           ((s.picUncroppedSize.2 : ℝ) / 2 -
             ((s.picUncroppedSize.2 : ℝ) - (s.picCropPosBR.2 : ℝ))) /
           ((s.picUncroppedSize.2 : ℝ) / 2)))

/-- Constructor member fovTL. -/
def fovTL (s : Projector) : ℝ × ℝ := s.calcTopLeftFOV

/-- Constructor member fovBR. -/
def fovBR (s : Projector) : ℝ × ℝ := s.calcBottomRightFOV

/-- Constructor member fovCentHor: maximum symmetric FOV covered by the
cropped picture (possibly with a one-sided margin). -/
def fovCentHor (s : Projector) : ℝ × ℝ :=
  ((s.fovBR).1 - (s.fovTL).1, 2 * max (s.fovTL).2 (-(s.fovBR).2))

/-- Constructor member fovCentHorNoMargin: maximum symmetric FOV fully
covered without margins. -/
def fovCentHorNoMargin (s : Projector) : ℝ × ℝ :=
  ((s.fovBR).1 - (s.fovTL).1, 2 * min (s.fovTL).2 (-(s.fovBR).2))

/-- Constructor member fovNonCentHorNoMargin: maximum asymmetric FOV fully
covered without margins. -/
def fovNonCentHorNoMargin (s : Projector) : ℝ × ℝ :=
  ((s.fovBR).1 - (s.fovTL).1, (s.fovTL).2 - (s.fovBR).2)

/-- Constructor member fovIs360Degrees: the horizontal FOV passes the rounded
comparison against 2 pi.  Constants::pi is modelled as the real number pi. -/
def fovIs360Degrees (s : Projector) : Prop :=
  ¬ roundedCompareSmaller (s.fovCentHor).1 (2 * π)

/-- Constructor member minZoomCentHor. -/
def minZoomCentHor (s : Projector) : ℝ :=
  tan ((s.fovCentHor).2 / 2) / tan ((s.fovCentHorNoMargin).2 / 2)

/-- Constructor member minZoomNonCentHor. -/
def minZoomNonCentHor (s : Projector) : ℝ :=
  tan ((s.fovCentHor).2 / 2) / tan ((s.fovNonCentHorNoMargin).2 / 2)

/-- Projector::getOffsetPhi. -/
def getOffsetPhi (s : Projector) : ℝ := s.viewOffsetPhi

/-- Projector::getOffsetTheta. -/
def getOffsetTheta (s : Projector) : ℝ := s.viewOffsetTheta

/-- Projector::getZoom. -/
def getZoom (s : Projector) : ℝ := s.zoom

/-- Projector::getNormalizedZoom. -/
def getNormalizedZoom (s : Projector) : ℝ := s.zoom / s.minZoomNonCentHor

/-- Projector::fitViewOffset: clip the view angle offset to stay within the
available field of view; for 360 degree panoramas keep phi within one period
instead of clamping. -/
def fitViewOffset (s : Projector) : Projector :=
  let phi :=
    if ¬ s.fovIs360Degrees then
      (if (s.fovCentHor).1 < s.displayFOV.1 then (s.fovCentHor).1 / 2
       else if s.viewOffsetPhi < s.displayFOV.1 / 2 then s.displayFOV.1 / 2
       else if s.viewOffsetPhi > (s.fovCentHor).1 - s.displayFOV.1 / 2 then
         (s.fovCentHor).1 - s.displayFOV.1 / 2
       else s.viewOffsetPhi)
    else
      (if s.viewOffsetPhi < 0 then s.viewOffsetPhi + 2 * π
       else if s.viewOffsetPhi ≥ 2 * π then s.viewOffsetPhi - 2 * π
       else s.viewOffsetPhi)
  let theta :=
    if s.displayFOV.2 / 2 - s.viewOffsetTheta > (s.fovTL).2 then
      s.displayFOV.2 / 2 - (s.fovTL).2
    else if s.displayFOV.2 / 2 + s.viewOffsetTheta > -(s.fovBR).2 then
      -(s.displayFOV.2 / 2 + (s.fovBR).2)
    else s.viewOffsetTheta
  { s with viewOffsetPhi := phi, viewOffsetTheta := theta }

end Projector

/-- Lower oversampling threshold fixed by the constructor. -/
def panoSphereRemapHystMinOvers : ℝ := 1

/-- Target oversampling fixed by the constructor. -/
def panoSphereRemapHystTargOvers : ℝ := 3 / 2

/-- Upper oversampling threshold fixed by the constructor. -/
def panoSphereRemapHystMaxOvers : ℝ := 2

namespace Projector

/-- Projector::staticDisplayTrafoX: phi angle of the centred panorama sphere
pointed to by display column pX. -/
def staticDisplayTrafoX (s : Projector) (pX : ℤ) : ℝ :=
  atan2 ((pX : ℝ) - (s.displaySize.1 : ℝ) / 2) s.f

/-- Projector::staticDisplayTrafoY: theta angle of the centred panorama
sphere pointed to by display position (pX, pY). -/
def staticDisplayTrafoY (s : Projector) (pY pX : ℤ) : ℝ :=
  arctan (((pY : ℝ) - (s.displaySize.2 : ℝ) / 2) / s.f *
    sin (atan2 s.f ((pX : ℝ) - (s.displaySize.1 : ℝ) / 2)))

/-- Projector::updateStaticDisplayTrafoCache: fill the two caches with the
values of staticDisplayTrafoX and staticDisplayTrafoY (resize followed by a
full overwrite equals a fresh list of exactly these values). -/
def updateStaticDisplayTrafoCache (s : Projector) : Projector :=
  { s with
    staticDisplayTrafosX :=
      (List.range (s.displaySize.1 + 1).toNat).map fun x : ℕ =>
        s.staticDisplayTrafoX (x : ℤ),
    staticDisplayTrafosY :=
      (List.range ((s.displaySize.1 + 1) * (s.displaySize.2 + 1)).toNat).map fun i : ℕ =>
        s.staticDisplayTrafoY ((i : ℤ) / (s.displaySize.1 + 1))
          ((i : ℤ) % (s.displaySize.1 + 1)) }

/-- Projector::displayTrafoX in its in-bounds functional reading: the cache
entry staticDisplayTrafosX[pX] is staticDisplayTrafoX pX. -/
def displayTrafoX (s : Projector) (pX : ℤ) : ℝ :=
  (s.staticDisplayTrafoX pX + s.viewOffsetPhi) * (s.panoSphereSize.1 : ℝ) / (s.fovCentHor).1

/-- Projector::displayTrafoY in its in-bounds functional reading: the cache
entry staticDisplayTrafosY[(displaySize.x+1)*pY+pX] is
staticDisplayTrafoY pY pX. -/
def displayTrafoY (s : Projector) (pY pX : ℤ) : ℝ :=
  (s.staticDisplayTrafoY pY pX + s.viewOffsetTheta) * (s.panoSphereSize.2 : ℝ) /
      (s.fovCentHor).2 +
    (s.panoSphereSize.2 : ℝ) / 2

/-- Projector::displayTrafoX reading the actual cache vector, with an
out-of-bounds vector read made explicit as none. -/
def displayTrafoXCached (s : Projector) (pX : ℕ) : Option ℝ :=
  (s.staticDisplayTrafosX[pX]?).map
    fun v => (v + s.viewOffsetPhi) * (s.panoSphereSize.1 : ℝ) / (s.fovCentHor).1

/-- Projector::displayTrafoY reading the actual cache vector, with an
out-of-bounds vector read made explicit as none. -/
def displayTrafoYCached (s : Projector) (pY pX : ℕ) : Option ℝ :=
  (s.staticDisplayTrafosY[(s.displaySize.1 + 1).toNat * pY + pX]?).map
    fun v =>
      (v + s.viewOffsetTheta) * (s.panoSphereSize.2 : ℝ) / (s.fovCentHor).2 +
        (s.panoSphereSize.2 : ℝ) / 2

/-- Projector::calcLowestDisplayTrafoOversampling reading the caches as the
source does. -/
def calcLowestDisplayTrafoOversamplingCached (s : Projector) : Option ℝ := do
  let tx0 ← s.displayTrafoXCached 0
  let tx1 ← s.displayTrafoXCached 1
  let ty0 ← s.displayTrafoYCached 0 0
  let ty1 ← s.displayTrafoYCached 1 0
  pure (min (tx1 - tx0) (ty1 - ty0))

/-- Projector::calcLowestDisplayTrafoOversampling in its in-bounds functional
reading (valid whenever the display is at least 1 by 1 and the caches are up
to date, see calcLowestDisplayTrafoOversampling_cached_eq). -/
def calcLowestDisplayTrafoOversampling (s : Projector) : ℝ :=
  min (s.displayTrafoX 1 - s.displayTrafoX 0) (s.displayTrafoY 1 0 - s.displayTrafoY 0 0)

/-- The panorama sphere size assigned at the top of
Projector::mapPicToPanoSphere before the oversampling-based rescaling. -/
def panoSphereSizeInit (s : Projector) : ℤ × ℤ :=
  ((s.picSize).1,
   itrunc (((s.picSize).1 : ℝ) * (s.fovCentHor).2 / (s.fovCentHor).1 + 1))

/-- Oversampling estimate inside mapPicToPanoSphere, computed after the
initial sphere size has been assigned to the member. -/
def mapSphereOversampling (s : Projector) : ℝ :=
  calcLowestDisplayTrafoOversampling { s with panoSphereSize := s.panoSphereSizeInit }

/-- Scale factor chosen by mapPicToPanoSphere: reduced below 1 only when the
initial oversampling estimate exceeds the target value. -/
def mapSphereScaleFactor (s : Projector) : ℝ :=
  if s.mapSphereOversampling > panoSphereRemapHystTargOvers then
    panoSphereRemapHystTargOvers / s.mapSphereOversampling
  else 1

/-- Final panorama sphere size chosen by Projector::mapPicToPanoSphere. -/
def panoSphereSizeFinal (s : Projector) : ℤ × ℤ :=
  if s.mapSphereOversampling > panoSphereRemapHystTargOvers then
    (itrunc (s.mapSphereScaleFactor * ((s.picSize).1 : ℝ) + 1),
     itrunc (s.mapSphereScaleFactor * ((s.picSize).1 : ℝ) * (s.fovCentHor).2 /
         (s.fovCentHor).1 + 1))
  else s.panoSphereSizeInit

/-- Effect of Projector::mapPicToPanoSphere on the projector members: the
panorama sphere buffer is re-sized (the pixel resampling itself is modelled
separately below). -/
def mapPicToPanoSphereState (s : Projector) : Projector :=
  { s with panoSphereSize := s.panoSphereSizeFinal }

/-- FOV, focal length and cache update portion of Projector::updateDisplayFOV
(everything before the automatic sphere remap decision). -/
def updateDisplayFOVSet (s : Projector) : Projector :=
  let aspect : ℝ := (s.displaySize.1 : ℝ) / (s.displaySize.2 : ℝ)
  let tanFOV2 : ℝ := tan ((s.fovCentHor).2 / 2)
  let f0 : ℝ := (s.displaySize.2 : ℝ) / 2 / tanFOV2
  updateStaticDisplayTrafoCache
    { s with
      displayFOV := (2 * arctan (tanFOV2 * aspect / s.zoom), 2 * arctan (tanFOV2 / s.zoom)),
      f := f0 * s.zoom }

/-- Condition under which Projector::updateDisplayFOV triggers the automatic
sphere remap, evaluated on the state left by updateDisplayFOVSet. -/
def remapCondition (s1 : Projector) : Prop :=
  (s1.calcLowestDisplayTrafoOversampling < panoSphereRemapHystMinOvers ∧
    (s1.panoSphereRemapHystMaxF = 0 ∨ s1.f < s1.panoSphereRemapHystMaxF)) ∨
  s1.calcLowestDisplayTrafoOversampling > panoSphereRemapHystMaxOvers

/-- Projector::updateDisplayFOV.  The returned Bool records whether
mapPicToPanoSphere was invoked. -/
def updateDisplayFOV (s : Projector) (pForceRemapSphere : Bool) : Projector × Bool :=
  let s1 := s.updateDisplayFOVSet
  if remapCondition s1 ∨ pForceRemapSphere = true then
    let s2 := s1.mapPicToPanoSphereState
    (if remapCondition s1 ∧
        s2.calcLowestDisplayTrafoOversampling < panoSphereRemapHystMinOvers then
       { s2 with panoSphereRemapHystMaxF := s2.f }
     else s2,
     true)
  else (s1, false)

/-- Projector::updateView. -/
def updateView (s : Projector) (pZoom pOffsetPhi pOffsetTheta : ℝ)
    (pForceAdjustResolution : Bool) : Projector :=
  let z : ℝ :=
    if pZoom = -1 then s.minZoomCentHor
    else if pZoom = 0 then s.minZoomNonCentHor
    else if pZoom < s.minZoomNonCentHor then s.minZoomNonCentHor
    else pZoom
  let th : ℝ := if pZoom = -1 then 0 else pOffsetTheta
  let s1 :=
    if z ≠ s.zoom then (({ s with zoom := z }).updateDisplayFOV pForceAdjustResolution).1
    else s
  fitViewOffset { s1 with viewOffsetPhi := pOffsetPhi, viewOffsetTheta := th }

/-- State with a new zoom value and the focal length recomputed for it, as
updateDisplayFOV does at a fixed display size: f = displaySize.y/2 /
tan(fovCentHor.y/2) * zoom. -/
def setZoomUpdateF (s : Projector) (z : ℝ) : Projector :=
  { s with
    zoom := z,
    f := (s.displaySize.2 : ℝ) / 2 / tan ((s.fovCentHor).2 / 2) * z }

/-- Projector::updateDisplaySize (the displayData buffer resize does not
affect the perspective state). -/
def updateDisplaySize (s : Projector) (pDisplaySize : ℤ × ℤ)
    (pForceAdjustResolution : Bool) : Projector :=
  fitViewOffset
    (({ s with displaySize := pDisplaySize }).updateDisplayFOV pForceAdjustResolution).1

end Projector

/-- Horizontal wrap offset applied by Projector::interpolatePixel to a source
column index that falls outside the image. -/
def interpWrap (srcW x : ℤ) : ℤ :=
  if x < 0 then srcW else if srcW ≤ x then -srcW else 0

/-- interpolatePixel local nx = bRxi - tLxi + 1. -/
def interpNx (pTLx pBRx : ℝ) : ℤ := itrunc pBRx - itrunc pTLx + 1

/-- interpolatePixel local ny = bRyi - tLyi + 1. -/
def interpNy (pTLy pBRy : ℝ) : ℤ := itrunc pBRy - itrunc pTLy + 1

/-- interpolatePixel local xWeight for loop index ix. -/
def interpXWeight (pTLx pBRx : ℝ) (ix : ℤ) : ℝ :=
  if ix = 0 then 1 + (itrunc pTLx : ℝ) - pTLx
  else if ix = interpNx pTLx pBRx - 1 then pBRx - (itrunc pBRx : ℝ)
  else 1

/-- interpolatePixel local yWeight for loop index iy. -/
def interpYWeight (pTLy pBRy : ℝ) (iy : ℤ) : ℝ :=
  if iy = 0 then 1 + (itrunc pTLy : ℝ) - pTLy
  else if iy = interpNy pTLy pBRy - 1 then pBRy - (itrunc pBRy : ℝ)
  else 1

/-- Whether loop iteration (iy, ix) of interpolatePixel contributes a term:
the row is vertically in bounds (otherwise continue) and, for non-360
scenes, the column needs no wrap offset (otherwise continue). -/
def interpCounted (srcSize : ℤ × ℤ) (is360 : Prop) (pTLx pTLy pBRx pBRy : ℝ)
    (iy ix : ℤ) : Prop :=
  0 ≤ itrunc pTLy + iy ∧ itrunc pTLy + iy < srcSize.2 ∧
    (is360 ∨ interpWrap srcSize.1 (itrunc pTLx + ix) = 0)

/-- The weight added to totalWeight by loop iteration (iy, ix) of
interpolatePixel (0 for skipped iterations). -/
def interpTermWeight (srcSize : ℤ × ℤ) (is360 : Prop) (pTLx pTLy pBRx pBRy : ℝ)
    (iy ix : ℤ) : ℝ :=
  if interpCounted srcSize is360 pTLx pTLy pBRx pBRy iy ix then
    interpXWeight pTLx pBRx ix * interpYWeight pTLy pBRy iy
  else 0

/-- Source column read by loop iteration ix of interpolatePixel:
tLxi + ix + wrap. -/
def interpReadX (srcW : ℤ) (pTLx : ℝ) (ix : ℤ) : ℤ :=
  itrunc pTLx + ix + interpWrap srcW (itrunc pTLx + ix)

/-- The totalWeight accumulated by Projector::interpolatePixel. -/
def interpolateTotalWeight (srcSize : ℤ × ℤ) (is360 : Prop)
    (pTLx pTLy pBRx pBRy : ℝ) : ℝ :=
  ∑ iy ∈ Finset.range (interpNy pTLy pBRy).toNat,
    ∑ ix ∈ Finset.range (interpNx pTLx pBRx).toNat,
      interpTermWeight srcSize is360 pTLx pTLy pBRx pBRy (iy : ℤ) (ix : ℤ)

/-- The per-channel weighted color sum accumulated by interpolatePixel, for a
source channel given as a total function of column and row. -/
def interpolateChannelSum (srcSize : ℤ × ℤ) (is360 : Prop) (chan : ℤ → ℤ → ℝ)
    (pTLx pTLy pBRx pBRy : ℝ) : ℝ :=
  ∑ iy ∈ Finset.range (interpNy pTLy pBRy).toNat,
    ∑ ix ∈ Finset.range (interpNx pTLx pBRx).toNat,
      interpTermWeight srcSize is360 pTLx pTLy pBRx pBRy (iy : ℤ) (ix : ℤ) *
        chan (interpReadX srcSize.1 pTLx (ix : ℤ)) (itrunc pTLy + (iy : ℤ))

/-- The channel value Projector::interpolatePixel writes to the target pixel:
the weighted sum divided by totalWeight, with no guard against a zero
totalWeight. -/
def interpolatePixelChannel (srcSize : ℤ × ℤ) (is360 : Prop) (chan : ℤ → ℤ → ℝ)
    (pTLx pTLy pBRx pBRy : ℝ) : ℝ :=
  interpolateChannelSum srcSize is360 chan pTLx pTLy pBRx pBRy /
    interpolateTotalWeight srcSize is360 pTLx pTLy pBRx pBRy

namespace Projector

/-- mapPicToPanoSphere local picHorizonY. -/
def picHorizonY (s : Projector) : ℝ :=
  (s.picUncroppedSize.2 : ℝ) / 2 - (s.picCropPosTL.2 : ℝ)

/-- mapPicToPanoSphere local tanFOV2. -/
def mapTanFOV2 (s : Projector) : ℝ := tan (s.picUncroppedFOV.2 / 2)

/-- mapPicToPanoSphere sphereTrafoX (same for both projection types),
evaluated with the final scale factor. -/
def sphereTrafoX (s : Projector) (x : ℤ) : ℝ := (x : ℝ) / s.mapSphereScaleFactor

/-- mapPicToPanoSphere sphereTrafoY, selected by projection type and
evaluated with the final scale factor and final sphere size. -/
def sphereTrafoY (s : Projector) (y : ℤ) : ℝ :=
  match s.projectionType with
  | .CentralCylindrical =>
      tan (((y : ℝ) - ((s.panoSphereSizeFinal).2 : ℝ) / 2) * (s.fovCentHor).2 /
            ((s.panoSphereSizeFinal).2 : ℝ)) / s.mapTanFOV2 *
          (s.picUncroppedSize.2 : ℝ) / 2 + s.picHorizonY
  | .Equirectangular =>
      ((y : ℝ) - ((s.panoSphereSizeFinal).2 : ℝ) / 2) / s.mapSphereScaleFactor +
        s.picHorizonY

/-- The skip condition of the mapPicToPanoSphere pixel loop: the sphere row
maps outside the loaded picture (bRy <= 0 or tLy >= picSize.y). -/
def sphereSkip (s : Projector) (y : ℤ) : Prop :=
  s.sphereTrafoY (y + 1) ≤ 0 ∨ ((s.picSize).2 : ℝ) ≤ s.sphereTrafoY y

/-- One channel of the panorama sphere buffer after mapPicToPanoSphere:
skipped rows keep the resize fill value 255, all other pixels are
interpolated from the loaded picture. -/
def mapPicToPanoSphereAt (s : Projector) (chan : ℤ → ℤ → ℝ) (x y : ℤ) : ℝ :=
  if s.sphereSkip y then 255
  else
    interpolatePixelChannel s.picSize s.fovIs360Degrees chan (s.sphereTrafoX x)
      (s.sphereTrafoY y) (s.sphereTrafoX (x + 1)) (s.sphereTrafoY (y + 1))

/-- One channel of one display pixel written by the updateDisplayDataLoop
body: the transformed pixel rectangle with the 360 or non-360 horizontal
fixups applied, then interpolated from the sphere buffer; fully
out-of-range pixels become black (0).  The float nextafter(panoSphereSize.x,
0) of the source is idealised as the real panoSphereSize.x. -/
def displayPixel (s : Projector) (chan : ℤ → ℤ → ℝ) (x y : ℤ) : ℝ :=
  let tLx0 := s.displayTrafoX x
  let bRx0 := s.displayTrafoX (x + 1)
  let tLy := s.displayTrafoY y x
  let bRy := s.displayTrafoY (y + 1) (x + 1)
  if s.fovIs360Degrees then
    let tLx1 := if tLx0 < 0 then tLx0 + (s.panoSphereSize.1 : ℝ) else tLx0
    let bRx1 := if bRx0 - tLx1 < 0 then bRx0 + (s.panoSphereSize.1 : ℝ) else bRx0
    interpolatePixelChannel s.panoSphereSize s.fovIs360Degrees chan tLx1 tLy bRx1 bRy
  else
    if tLx0 < 0 then
      if bRx0 < 0 then 0
      else interpolatePixelChannel s.panoSphereSize s.fovIs360Degrees chan 0 tLy bRx0 bRy
    else if s.panoSphereSize.1 ≤ itrunc bRx0 then
      if (s.panoSphereSize.1 : ℝ) < tLx0 then 0
      else
        interpolatePixelChannel s.panoSphereSize s.fovIs360Degrees chan tLx0 tLy
          (s.panoSphereSize.1 : ℝ) bRy
    else interpolatePixelChannel s.panoSphereSize s.fovIs360Degrees chan tLx0 tLy bRx0 bRy

end Projector

/-- A concrete non-360 scene used as a test input: equirectangular, uncropped
size 1 by 1, uncropped FOV (pi, pi), full crop. -/
def sceneNon360 : Projector where
  projectionType := .Equirectangular
  picUncroppedSize := (1, 1)
  picUncroppedFOV := (π, π)
  picCropPosTL := (0, 0)
  picCropPosBR := (1, 1)
  f := 1 / 2
  zoom := 1
  viewOffsetPhi := π / 4
  viewOffsetTheta := 0
  displaySize := (1, 1)
  displayFOV := (1, 1)
  staticDisplayTrafosX := []
  staticDisplayTrafosY := []
  panoSphereSize := (1, 2)
  panoSphereRemapHystMaxF := 0

/-- A concrete 360 degree scene used as a test input: equirectangular,
uncropped size 4 by 2, uncropped FOV (2 pi, pi), full crop. -/
def scene360 : Projector where
  projectionType := .Equirectangular
  picUncroppedSize := (4, 2)
  picUncroppedFOV := (2 * π, π)
  picCropPosTL := (0, 0)
  picCropPosBR := (4, 2)
  f := 1
  zoom := 1
  viewOffsetPhi := 0
  viewOffsetTheta := 0
  displaySize := (2, 2)
  displayFOV := (1, 1)
  staticDisplayTrafosX := []
  staticDisplayTrafosY := []
  panoSphereSize := (4, 2)
  panoSphereRemapHystMaxF := 0

/-- A concrete scene whose centred-horizon FOV is symmetric with quarter-pi
half angles: equirectangular, uncropped size 2 by 2, uncropped FOV
(pi, pi/2), full crop; display FOV consistent with zoom 1. -/
def sceneQuarter : Projector where
  projectionType := .Equirectangular
  picUncroppedSize := (2, 2)
  picUncroppedFOV := (π, π / 2)
  picCropPosTL := (0, 0)
  picCropPosBR := (2, 2)
  f := 1
  zoom := 1
  viewOffsetPhi := 0
  viewOffsetTheta := 0
  displaySize := (2, 2)
  displayFOV := (π / 2, π / 2)
  staticDisplayTrafosX := []
  staticDisplayTrafosY := []
  panoSphereSize := (2, 1)
  panoSphereRemapHystMaxF := 0

/-- A concrete scene on which the oversampling metric increases with the
zoom: equirectangular, full crop, display 4 by 8, vertical FOV 2 arctan 4, so
that the focal length equals the zoom and is below half the display extents
at zoom 1. -/
def sceneC7 : Projector where
  projectionType := .Equirectangular
  picUncroppedSize := (2, 2)
  picUncroppedFOV := (3, 2 * arctan 4)
  picCropPosTL := (0, 0)
  picCropPosBR := (2, 2)
  f := 1
  zoom := 1
  viewOffsetPhi := 0
  viewOffsetTheta := 0
  displaySize := (4, 8)
  displayFOV := (1, 1)
  staticDisplayTrafosX := []
  staticDisplayTrafosY := []
  panoSphereSize := (10, 10)
  panoSphereRemapHystMaxF := 0

/-- Modelled from the spec: a value rounded to 4 decimal places (round to
nearest), as the basis of the comparison described for the 360 degree flag. -/
def specRounded4 (x : ℝ) : ℤ := ⌊x * 10000 + 1 / 2⌋

/-- Modelled from the spec: the flag reading claimed for fovIs360Degrees,
namely that the horizontal FOV is not smaller than 2 pi when both values are
compared rounded to 4 decimal places. -/
def spec_is360 (fov : ℝ) : Prop := ¬ (specRounded4 fov < specRounded4 (2 * π))

/-- A concrete scene whose horizontal centred FOV is exactly 6.2830, which is
smaller than 2 pi even after rounding to 4 decimal places. -/
def scene6283 : Projector where
  projectionType := .Equirectangular
  picUncroppedSize := (1, 1)
  picUncroppedFOV := (6283 / 1000, π)
  picCropPosTL := (0, 0)
  picCropPosBR := (1, 1)
  f := 1
  zoom := 1
  viewOffsetPhi := 0
  viewOffsetTheta := 0
  displaySize := (2, 2)
  displayFOV := (1, 1)
  staticDisplayTrafosX := []
  staticDisplayTrafosY := []
  panoSphereSize := (1, 1)
  panoSphereRemapHystMaxF := 0

lemma itrunc_of_nonneg {x : ℝ} (h : 0 ≤ x) : itrunc x = ⌊x⌋ := by
  unfold itrunc
  rw [if_neg (not_lt.mpr h)]

lemma itrunc_pi_e4 : itrunc (π * 10000) = 31415 := by
  rw [itrunc_of_nonneg (by positivity)]
  have h1 := Real.pi_gt_d4
  have h2 := Real.pi_lt_d4
  rw [Int.floor_eq_iff]
  constructor <;> push_cast <;> nlinarith

lemma itrunc_two_pi_e4 : itrunc (2 * π * 10000) = 62831 := by
  rw [itrunc_of_nonneg (by positivity)]
  have h1 := Real.pi_gt_d6
  have h2 := Real.pi_lt_d6
  rw [Int.floor_eq_iff]
  constructor <;> push_cast <;> nlinarith

lemma sceneNon360_fovTL : sceneNon360.fovTL = (0, π / 2) := by
  show sceneNon360.calcTopLeftFOV = (0, π / 2)
  unfold Projector.calcTopLeftFOV sceneNon360
  norm_num

lemma sceneNon360_fovBR : sceneNon360.fovBR = (π, -(π / 2)) := by
  show sceneNon360.calcBottomRightFOV = (π, -(π / 2))
  unfold Projector.calcBottomRightFOV sceneNon360
  norm_num

lemma sceneNon360_fovCentHor : sceneNon360.fovCentHor = (π, π) := by
  unfold Projector.fovCentHor
  rw [sceneNon360_fovTL, sceneNon360_fovBR]
  norm_num
  ring

lemma sceneNon360_not360 : ¬ sceneNon360.fovIs360Degrees := by
  unfold Projector.fovIs360Degrees roundedCompareSmaller
  rw [sceneNon360_fovCentHor, not_not]
  show itrunc (π * 10000) + 1 < itrunc (2 * π * 10000)
  rw [itrunc_pi_e4, itrunc_two_pi_e4]
  norm_num

lemma scene360_fovCentHor (phi : ℝ) :
    ({ scene360 with viewOffsetPhi := phi } : Projector).fovCentHor = (2 * π, π) := by
  unfold Projector.fovCentHor Projector.fovTL Projector.fovBR
  unfold Projector.calcTopLeftFOV Projector.calcBottomRightFOV scene360
  norm_num
  ring

lemma scene360_is360 (phi : ℝ) :
    ({ scene360 with viewOffsetPhi := phi } : Projector).fovIs360Degrees := by
  unfold Projector.fovIs360Degrees roundedCompareSmaller
  rw [scene360_fovCentHor]
  show ¬ (itrunc (2 * π * 10000) + 1 < itrunc (2 * π * 10000))
  omega

/-- C1: for a non-360 scene, fitViewOffset leaves phi inside
[displayFOV.x/2, fovCentHor.x - displayFOV.x/2] whenever that interval is
non-empty, and sets phi to the centre fovCentHor.x/2 whenever displayFOV.x
exceeds fovCentHor.x. -/
theorem fitViewOffset_phi_non360 (s : Projector) (h360 : ¬ s.fovIs360Degrees) :
    (s.displayFOV.1 ≤ (s.fovCentHor).1 →
      s.displayFOV.1 / 2 ≤ (s.fitViewOffset).viewOffsetPhi ∧
        (s.fitViewOffset).viewOffsetPhi ≤ (s.fovCentHor).1 - s.displayFOV.1 / 2) ∧
    ((s.fovCentHor).1 < s.displayFOV.1 →
      (s.fitViewOffset).viewOffsetPhi = (s.fovCentHor).1 / 2) := by
  unfold Projector.fitViewOffset
  simp only [if_pos h360]
  constructor
  · intro hle
    split_ifs with h1 h2 h3 <;> constructor <;> linarith
  · intro hlt
    rw [if_pos hlt]

/-- Witness for fitViewOffset_phi_non360 at a concrete scene with
fovCentHor.x = pi, displayFOV.x = 1 and requested phi = 5. -/
theorem fitViewOffset_phi_non360_witness :
    (1 : ℝ) / 2 ≤
        ({ sceneNon360 with viewOffsetPhi := 5 } : Projector).fitViewOffset.viewOffsetPhi ∧
      ({ sceneNon360 with viewOffsetPhi := 5 } : Projector).fitViewOffset.viewOffsetPhi ≤
        π - 1 / 2 := by
  have h360 : ¬ ({ sceneNon360 with viewOffsetPhi := 5 } : Projector).fovIs360Degrees := by
    unfold Projector.fovIs360Degrees roundedCompareSmaller
    have hfov : ({ sceneNon360 with viewOffsetPhi := 5 } : Projector).fovCentHor = (π, π) := by
      unfold Projector.fovCentHor Projector.fovTL Projector.fovBR
      unfold Projector.calcTopLeftFOV Projector.calcBottomRightFOV sceneNon360
      norm_num
      ring
    rw [hfov, not_not]
    show itrunc (π * 10000) + 1 < itrunc (2 * π * 10000)
    rw [itrunc_pi_e4, itrunc_two_pi_e4]
    norm_num
  have hfov : ({ sceneNon360 with viewOffsetPhi := 5 } : Projector).fovCentHor = (π, π) := by
    unfold Projector.fovCentHor Projector.fovTL Projector.fovBR
    unfold Projector.calcTopLeftFOV Projector.calcBottomRightFOV sceneNon360
    norm_num
    ring
  have hd : ({ sceneNon360 with viewOffsetPhi := 5 } : Projector).displayFOV.1 = 1 := by
    unfold sceneNon360
    norm_num
  have h := (fitViewOffset_phi_non360 { sceneNon360 with viewOffsetPhi := 5 } h360).1
  rw [hfov, hd] at h
  have hple : (1 : ℝ) ≤ π := by nlinarith [Real.pi_gt_three]
  exact h hple

/-- C2, amended: for a 360 degree scene, fitViewOffset brings phi into
[0, 2 pi) provided the incoming phi lies in [-2 pi, 4 pi); the code adds or
subtracts a single period only. -/
theorem fitViewOffset_phi_360 (s : Projector) (h360 : s.fovIs360Degrees)
    (hlo : -(2 * π) ≤ s.viewOffsetPhi) (hhi : s.viewOffsetPhi < 4 * π) :
    0 ≤ (s.fitViewOffset).viewOffsetPhi ∧ (s.fitViewOffset).viewOffsetPhi < 2 * π := by
  unfold Projector.fitViewOffset
  dsimp only
  rw [if_neg (not_not.mpr h360)]
  have hpi := Real.pi_pos
  split_ifs with h1 h2 <;> constructor <;> linarith

/-- Witness for fitViewOffset_phi_360: the 360 scene with requested
phi = -0.5 ends up within [0, 2 pi). -/
theorem fitViewOffset_phi_360_witness :
    0 ≤ ({ scene360 with viewOffsetPhi := -(1 / 2) } : Projector).fitViewOffset.viewOffsetPhi ∧
      ({ scene360 with viewOffsetPhi := -(1 / 2) } : Projector).fitViewOffset.viewOffsetPhi <
        2 * π := by
  have hpi := Real.pi_gt_three
  have hphi : ({ scene360 with viewOffsetPhi := -(1 / 2) } : Projector).viewOffsetPhi
      = -(1 / 2) := by
    unfold scene360
    norm_num
  refine fitViewOffset_phi_360 _ (scene360_is360 _) ?_ ?_ <;> rw [hphi] <;> linarith

section Congruence

/-- The derived geometry of a Projector only depends on the immutable
metadata members fixed at construction. -/
lemma derivedGeometry_congr (s t : Projector)
    (h1 : s.projectionType = t.projectionType)
    (h2 : s.picUncroppedSize = t.picUncroppedSize)
    (h3 : s.picUncroppedFOV = t.picUncroppedFOV)
    (h4 : s.picCropPosTL = t.picCropPosTL)
    (h5 : s.picCropPosBR = t.picCropPosBR) :
    s.fovTL = t.fovTL ∧ s.fovBR = t.fovBR ∧ s.fovCentHor = t.fovCentHor ∧
      s.fovCentHorNoMargin = t.fovCentHorNoMargin ∧
      s.fovNonCentHorNoMargin = t.fovNonCentHorNoMargin ∧
      s.minZoomCentHor = t.minZoomCentHor ∧ s.minZoomNonCentHor = t.minZoomNonCentHor ∧
      s.picSize = t.picSize ∧ (s.fovIs360Degrees ↔ t.fovIs360Degrees) := by
  have hTL : s.fovTL = t.fovTL := by
    unfold Projector.fovTL Projector.calcTopLeftFOV
    rw [h1, h2, h3, h4]
  have hBR : s.fovBR = t.fovBR := by
    unfold Projector.fovBR Projector.calcBottomRightFOV
    rw [h1, h2, h3, h5]
  refine ⟨hTL, hBR, ?_, ?_, ?_, ?_, ?_, ?_, ?_⟩
  · unfold Projector.fovCentHor
    rw [hTL, hBR]
  · unfold Projector.fovCentHorNoMargin
    rw [hTL, hBR]
  · unfold Projector.fovNonCentHorNoMargin
    rw [hTL, hBR]
  · unfold Projector.minZoomCentHor Projector.fovCentHor Projector.fovCentHorNoMargin
    rw [hTL, hBR]
  · unfold Projector.minZoomNonCentHor Projector.fovCentHor Projector.fovNonCentHorNoMargin
    rw [hTL, hBR]
  · unfold Projector.picSize
    rw [h4, h5]
  · unfold Projector.fovIs360Degrees Projector.fovCentHor
    rw [hTL, hBR]

/-- updateDisplayFOV leaves the metadata, zoom, the view offsets and the
display size unchanged and installs the FOV of updateDisplayFOVSet. -/
lemma updateDisplayFOV_fst_fields (s : Projector) (b : Bool) :
    ((s.updateDisplayFOV b).1).projectionType = s.projectionType ∧
      ((s.updateDisplayFOV b).1).picUncroppedSize = s.picUncroppedSize ∧
      ((s.updateDisplayFOV b).1).picUncroppedFOV = s.picUncroppedFOV ∧
      ((s.updateDisplayFOV b).1).picCropPosTL = s.picCropPosTL ∧
      ((s.updateDisplayFOV b).1).picCropPosBR = s.picCropPosBR ∧
      ((s.updateDisplayFOV b).1).zoom = s.zoom ∧
      ((s.updateDisplayFOV b).1).viewOffsetPhi = s.viewOffsetPhi ∧
      ((s.updateDisplayFOV b).1).viewOffsetTheta = s.viewOffsetTheta ∧
      ((s.updateDisplayFOV b).1).displaySize = s.displaySize ∧
      ((s.updateDisplayFOV b).1).displayFOV = (s.updateDisplayFOVSet).displayFOV := by
  unfold Projector.updateDisplayFOV
  dsimp only
  split_ifs <;>
    exact ⟨rfl, rfl, rfl, rfl, rfl, rfl, rfl, rfl, rfl, rfl⟩

/-- fitViewOffset only changes the view offsets. -/
lemma fitViewOffset_fields (s : Projector) :
    ((s.fitViewOffset).projectionType = s.projectionType ∧
      (s.fitViewOffset).picUncroppedSize = s.picUncroppedSize ∧
      (s.fitViewOffset).picUncroppedFOV = s.picUncroppedFOV ∧
      (s.fitViewOffset).picCropPosTL = s.picCropPosTL ∧
      (s.fitViewOffset).picCropPosBR = s.picCropPosBR) ∧
      (s.fitViewOffset).zoom = s.zoom ∧ (s.fitViewOffset).displaySize = s.displaySize ∧
      (s.fitViewOffset).displayFOV = s.displayFOV :=
  ⟨⟨rfl, rfl, rfl, rfl, rfl⟩, rfl, rfl, rfl⟩

end Congruence

/-- C5: updateDisplayFOV invokes the full re-resample (mapPicToPanoSphere)
exactly when the oversampling metric is below 1.0 and the focal length is not
beyond a recorded dead end (panoSphereRemapHystMaxF is 0 or f is below it),
or when the metric is above 2.0, or when the force flag is passed; and
whenever such an automatic remap still leaves the metric below 1.0 the
current focal length is recorded in panoSphereRemapHystMaxF, which is
otherwise unchanged. -/
theorem updateDisplayFOV_remap_spec (s : Projector) (force : Bool) :
    ((s.updateDisplayFOV force).2 = true ↔
      (((s.updateDisplayFOVSet).calcLowestDisplayTrafoOversampling < 1 ∧
          (s.panoSphereRemapHystMaxF = 0 ∨
            (s.updateDisplayFOVSet).f < s.panoSphereRemapHystMaxF)) ∨
        2 < (s.updateDisplayFOVSet).calcLowestDisplayTrafoOversampling ∨ force = true)) ∧
    ((s.updateDisplayFOV force).1.panoSphereRemapHystMaxF =
      if ((s.updateDisplayFOVSet).calcLowestDisplayTrafoOversampling < 1 ∧
            (s.panoSphereRemapHystMaxF = 0 ∨
              (s.updateDisplayFOVSet).f < s.panoSphereRemapHystMaxF) ∨
          2 < (s.updateDisplayFOVSet).calcLowestDisplayTrafoOversampling) ∧
          ((s.updateDisplayFOVSet).mapPicToPanoSphereState).calcLowestDisplayTrafoOversampling
            < 1 then
        (s.updateDisplayFOVSet).f
      else s.panoSphereRemapHystMaxF) := by
  unfold Projector.updateDisplayFOV
  dsimp only
  by_cases hr : ((s.updateDisplayFOVSet).calcLowestDisplayTrafoOversampling < 1 ∧
        (s.panoSphereRemapHystMaxF = 0 ∨
          (s.updateDisplayFOVSet).f < s.panoSphereRemapHystMaxF)) ∨
      2 < (s.updateDisplayFOVSet).calcLowestDisplayTrafoOversampling
  · have hrC : (s.updateDisplayFOVSet).remapCondition := hr
    by_cases hp : ((s.updateDisplayFOVSet).mapPicToPanoSphereState).calcLowestDisplayTrafoOversampling < 1
    · have hpC : ((s.updateDisplayFOVSet).mapPicToPanoSphereState).calcLowestDisplayTrafoOversampling <
        panoSphereRemapHystMinOvers := hp
      rw [if_pos (Or.inl hrC), if_pos (And.intro hrC hpC), if_pos (And.intro hr hp)]
      exact ⟨iff_of_true rfl (hr.elim Or.inl fun h => Or.inr (Or.inl h)), rfl⟩
    · have hpC : ¬(((s.updateDisplayFOVSet).mapPicToPanoSphereState).calcLowestDisplayTrafoOversampling <
        panoSphereRemapHystMinOvers) := hp
      have hn1 : ¬((s.updateDisplayFOVSet).remapCondition ∧
          ((s.updateDisplayFOVSet).mapPicToPanoSphereState).calcLowestDisplayTrafoOversampling <
        panoSphereRemapHystMinOvers) := fun hc => hpC hc.2
      have hn2 : (((s.updateDisplayFOVSet).calcLowestDisplayTrafoOversampling < 1 ∧
        (s.panoSphereRemapHystMaxF = 0 ∨
          (s.updateDisplayFOVSet).f < s.panoSphereRemapHystMaxF)) ∨
            2 < (s.updateDisplayFOVSet).calcLowestDisplayTrafoOversampling) ∧
            ((s.updateDisplayFOVSet).mapPicToPanoSphereState).calcLowestDisplayTrafoOversampling < 1 → False := fun hc => hp hc.2
      rw [if_pos (Or.inl hrC), if_neg hn1, if_neg hn2]
      exact ⟨iff_of_true rfl (hr.elim Or.inl fun h => Or.inr (Or.inl h)), rfl⟩
  · have hrC : ¬(s.updateDisplayFOVSet).remapCondition := hr
    have hn1 : ¬((s.updateDisplayFOVSet).remapCondition ∧
        ((s.updateDisplayFOVSet).mapPicToPanoSphereState).calcLowestDisplayTrafoOversampling <
        panoSphereRemapHystMinOvers) := fun hc => hrC hc.1
    have hn2 : (((s.updateDisplayFOVSet).calcLowestDisplayTrafoOversampling < 1 ∧
        (s.panoSphereRemapHystMaxF = 0 ∨
          (s.updateDisplayFOVSet).f < s.panoSphereRemapHystMaxF)) ∨
          2 < (s.updateDisplayFOVSet).calcLowestDisplayTrafoOversampling) ∧
          ((s.updateDisplayFOVSet).mapPicToPanoSphereState).calcLowestDisplayTrafoOversampling < 1 → False := fun hc => hr hc.1
    by_cases hf : force = true
    · rw [if_pos (Or.inr hf), if_neg hn1, if_neg hn2]
      exact ⟨iff_of_true rfl (Or.inr (Or.inr hf)), rfl⟩
    · have hno : ¬((s.updateDisplayFOVSet).remapCondition ∨ force = true) :=
        fun hc => hc.elim hrC hf
      rw [if_neg hno, if_neg hn2]
      refine ⟨iff_of_false Bool.false_ne_true ?_, rfl⟩
      rintro (h | h | h)
      · exact hr (Or.inl h)
      · exact hr (Or.inr h)
      · exact hf h

/-- C2 counterexample: for the 360 degree scene and requested phi = -7 the
fitted phi is still negative, refuting the claim that any input phi lands in
[0, 2 pi). -/
theorem fitViewOffset_phi_360_counterexample :
    ({ scene360 with viewOffsetPhi := -7 } : Projector).fitViewOffset.viewOffsetPhi < 0 := by
  have h360 := scene360_is360 (-7)
  unfold Projector.fitViewOffset
  dsimp only
  rw [if_neg (not_not.mpr h360)]
  rw [if_pos (by norm_num : (-7 : ℝ) < 0)]
  have := Real.pi_lt_d2
  linarith

lemma fitViewOffset_theta_of_not_clipped (t : Projector)
    (h1 : ¬ (t.displayFOV.2 / 2 - t.viewOffsetTheta > (t.fovTL).2))
    (h2 : ¬ (t.displayFOV.2 / 2 + t.viewOffsetTheta > -(t.fovBR).2)) :
    (t.fitViewOffset).viewOffsetTheta = t.viewOffsetTheta := by
  unfold Projector.fitViewOffset
  dsimp only
  rw [if_neg h1, if_neg h2]

/-- The FOV installed by updateDisplayFOVSet, written out. -/
lemma updateDisplayFOVSet_displayFOV (s : Projector) :
    (s.updateDisplayFOVSet).displayFOV =
      (2 * arctan (tan ((s.fovCentHor).2 / 2) *
          ((s.displaySize.1 : ℝ) / (s.displaySize.2 : ℝ)) / s.zoom),
       2 * arctan (tan ((s.fovCentHor).2 / 2) / s.zoom)) := rfl

/-- At the centred-horizon minimum zoom the displayed vertical half FOV is
exactly the no-margin half FOV min(fovTL.y, -fovBR.y). -/
lemma arctan_tan_div_minZoomCentHor (s : Projector)
    (hN : 0 < min (s.fovTL).2 (-(s.fovBR).2))
    (hC : max (s.fovTL).2 (-(s.fovBR).2) < π / 2) :
    arctan (tan ((s.fovCentHor).2 / 2) / s.minZoomCentHor) =
      min (s.fovTL).2 (-(s.fovBR).2) := by
  have hminmax : min (s.fovTL).2 (-(s.fovBR).2) ≤ max (s.fovTL).2 (-(s.fovBR).2) :=
    (min_le_left _ _).trans (le_max_left _ _)
  have hCpos : 0 < max (s.fovTL).2 (-(s.fovBR).2) := lt_of_lt_of_le hN hminmax
  have hNlt : min (s.fovTL).2 (-(s.fovBR).2) < π / 2 := lt_of_le_of_lt hminmax hC
  have htC : 0 < tan (max (s.fovTL).2 (-(s.fovBR).2)) :=
    tan_pos_of_pos_of_lt_pi_div_two hCpos hC
  have htN : 0 < tan (min (s.fovTL).2 (-(s.fovBR).2)) :=
    tan_pos_of_pos_of_lt_pi_div_two hN hNlt
  have hCH : (s.fovCentHor).2 / 2 = max (s.fovTL).2 (-(s.fovBR).2) := by
    show 2 * max (s.fovTL).2 (-(s.fovBR).2) / 2 = _
    ring
  have hNM : (s.fovCentHorNoMargin).2 / 2 = min (s.fovTL).2 (-(s.fovBR).2) := by
    show 2 * min (s.fovTL).2 (-(s.fovBR).2) / 2 = _
    ring
  have harg : tan ((s.fovCentHor).2 / 2) / s.minZoomCentHor =
      tan (min (s.fovTL).2 (-(s.fovBR).2)) := by
    unfold Projector.minZoomCentHor
    rw [hCH, hNM]
    field_simp
  rw [harg]
  exact arctan_tan (by linarith) hNlt

/-- After the offset fit, theta remains 0 whenever the displayed vertical
FOV equals the symmetric no-margin FOV 2 * min a b. -/
lemma fitted_theta_zero (t : Projector) (a b : ℝ)
    (hth : t.viewOffsetTheta = 0)
    (hTL : (t.fovTL).2 = a) (hBR : -(t.fovBR).2 = b)
    (hd : t.displayFOV.2 = 2 * min a b) :
    (t.fitViewOffset).viewOffsetTheta = 0 := by
  have h1 : ¬ (t.displayFOV.2 / 2 - t.viewOffsetTheta > (t.fovTL).2) := by
    rw [not_lt, hth, hd, hTL]
    have := min_le_left a b
    linarith
  have h2 : ¬ (t.displayFOV.2 / 2 + t.viewOffsetTheta > -(t.fovBR).2) := by
    rw [not_lt, hth, hd, hBR]
    have := min_le_right a b
    linarith
  rw [fitViewOffset_theta_of_not_clipped t h1 h2, hth]

lemma updateView_reduce (s : Projector) (pZoom pPhi pTheta : ℝ) (force : Bool) :
    s.updateView pZoom pPhi pTheta force =
      Projector.fitViewOffset
        { (if (if pZoom = -1 then s.minZoomCentHor
               else if pZoom = 0 then s.minZoomNonCentHor
               else if pZoom < s.minZoomNonCentHor then s.minZoomNonCentHor else pZoom) =
              s.zoom then s
           else
             ((({ s with
                   zoom :=
                     if pZoom = -1 then s.minZoomCentHor
                     else if pZoom = 0 then s.minZoomNonCentHor
                     else if pZoom < s.minZoomNonCentHor then s.minZoomNonCentHor
                     else pZoom }).updateDisplayFOV force).1)) with
          viewOffsetPhi := pPhi, viewOffsetTheta := if pZoom = -1 then 0 else pTheta } := by
  unfold Projector.updateView
  dsimp only
  rw [ite_not]

lemma updateView_neg_one (s : Projector) (pPhi pTheta : ℝ) (force : Bool) :
    s.updateView (-1) pPhi pTheta force =
      Projector.fitViewOffset
        { (if s.minZoomCentHor = s.zoom then s
           else (({ s with zoom := s.minZoomCentHor }).updateDisplayFOV force).1) with
          viewOffsetPhi := pPhi, viewOffsetTheta := 0 } := by
  rw [updateView_reduce]
  norm_num

lemma updateView_zero (s : Projector) (pPhi pTheta : ℝ) (force : Bool) :
    s.updateView 0 pPhi pTheta force =
      Projector.fitViewOffset
        { (if s.minZoomNonCentHor = s.zoom then s
           else (({ s with zoom := s.minZoomNonCentHor }).updateDisplayFOV force).1) with
          viewOffsetPhi := pPhi, viewOffsetTheta := pTheta } := by
  rw [updateView_reduce]
  norm_num

/-- C3: updateView with the -1 zoom sentinel always ends with theta equal to
0 and zoom equal to minZoomCentHor; in particular the subsequent offset
fitting never moves theta away from 0 at that zoom.  The hypothesis hinv is
the display FOV consistency established by any previous updateDisplaySize or
updateDisplayFOV call. -/
theorem updateView_centerSentinel (s : Projector) (pPhi pTheta : ℝ) (force : Bool)
    (hinv : s.displayFOV.2 = 2 * arctan (tan ((s.fovCentHor).2 / 2) / s.zoom))
    (hN : 0 < min (s.fovTL).2 (-(s.fovBR).2))
    (hC : max (s.fovTL).2 (-(s.fovBR).2) < π / 2) :
    (s.updateView (-1) pPhi pTheta force).getOffsetTheta = 0 ∧
      (s.updateView (-1) pPhi pTheta force).getZoom = s.minZoomCentHor := by
  have hkey := arctan_tan_div_minZoomCentHor s hN hC
  rw [show (s.updateView (-1) pPhi pTheta force).getOffsetTheta =
      (s.updateView (-1) pPhi pTheta force).viewOffsetTheta from rfl,
    show (s.updateView (-1) pPhi pTheta force).getZoom =
      (s.updateView (-1) pPhi pTheta force).zoom from rfl,
    updateView_neg_one]
  by_cases hz : s.minZoomCentHor = s.zoom
  · rw [if_pos hz]
    refine ⟨fitted_theta_zero _ ((s.fovTL).2) (-(s.fovBR).2) rfl rfl rfl ?_, hz.symm⟩
    show s.displayFOV.2 = 2 * min (s.fovTL).2 (-(s.fovBR).2)
    rw [hinv, ← hz, hkey]
  · rw [if_neg hz]
    obtain ⟨m1, m2, m3, m4, m5, hzoom, -, -, -, hfov⟩ :=
      updateDisplayFOV_fst_fields { s with zoom := s.minZoomCentHor } force
    obtain ⟨hTL, hBR, -, -, -, -, -, -, -⟩ :=
      derivedGeometry_congr
        ((({ s with zoom := s.minZoomCentHor }).updateDisplayFOV force).1) s m1 m2 m3 m4 m5
    have hCH0 : ({ s with zoom := s.minZoomCentHor } : Projector).fovCentHor = s.fovCentHor :=
      (derivedGeometry_congr _ s rfl rfl rfl rfl rfl).2.2.1
    have hstep :
        ((({ s with zoom := s.minZoomCentHor }).updateDisplayFOV force).1).displayFOV.2 =
          2 * min (s.fovTL).2 (-(s.fovBR).2) := by
      rw [hfov, updateDisplayFOVSet_displayFOV]
      show 2 * arctan (tan ((({ s with zoom := s.minZoomCentHor } :
          Projector).fovCentHor).2 / 2) / s.minZoomCentHor) = _
      rw [hCH0, hkey]
    refine ⟨fitted_theta_zero _ ((s.fovTL).2) (-(s.fovBR).2) rfl ?_ ?_ ?_, hzoom⟩
    · exact congrArg Prod.snd hTL
    · exact congrArg (fun v => -(Prod.snd v)) hBR
    · exact hstep

lemma sceneQuarter_fovTL : sceneQuarter.fovTL = (0, π / 4) := by
  show sceneQuarter.calcTopLeftFOV = (0, π / 4)
  unfold Projector.calcTopLeftFOV sceneQuarter
  norm_num
  ring

lemma sceneQuarter_fovBR : sceneQuarter.fovBR = (π, -(π / 4)) := by
  show sceneQuarter.calcBottomRightFOV = (π, -(π / 4))
  unfold Projector.calcBottomRightFOV sceneQuarter
  norm_num
  ring

lemma sceneQuarter_fovCentHor : sceneQuarter.fovCentHor = (π, π / 2) := by
  unfold Projector.fovCentHor
  rw [sceneQuarter_fovTL, sceneQuarter_fovBR]
  norm_num
  ring

lemma sceneQuarter_minZoomNonCentHor : sceneQuarter.minZoomNonCentHor = 1 := by
  unfold Projector.minZoomNonCentHor Projector.fovNonCentHorNoMargin
  rw [sceneQuarter_fovCentHor, sceneQuarter_fovTL, sceneQuarter_fovBR]
  show tan (π / 2 / 2) / tan ((π / 4 - -(π / 4)) / 2) = 1
  rw [show (π / 2 / 2 : ℝ) = π / 4 by ring, show ((π / 4 - -(π / 4)) / 2 : ℝ) = π / 4 by ring,
    Real.tan_pi_div_four]
  norm_num

/-- Witness for updateView_centerSentinel on the concrete quarter-pi scene
with requested phi = 1/3 and theta = 7/10. -/
theorem updateView_centerSentinel_witness :
    (sceneQuarter.updateView (-1) (1 / 3) (7 / 10) false).getOffsetTheta = 0 ∧
      (sceneQuarter.updateView (-1) (1 / 3) (7 / 10) false).getZoom =
        sceneQuarter.minZoomCentHor := by
  have hpi := Real.pi_pos
  refine updateView_centerSentinel sceneQuarter (1 / 3) (7 / 10) false ?_ ?_ ?_
  · rw [sceneQuarter_fovCentHor]
    show (π / 2 : ℝ) = 2 * arctan (tan (π / 2 / 2) / sceneQuarter.zoom)
    rw [show (π / 2 / 2 : ℝ) = π / 4 by ring, Real.tan_pi_div_four,
      show sceneQuarter.zoom = 1 from rfl]
    rw [div_one, Real.arctan_one]
    ring
  · rw [sceneQuarter_fovTL, sceneQuarter_fovBR]
    show 0 < min (π / 4) (-(-(π / 4)))
    rw [neg_neg, min_self]
    linarith
  · rw [sceneQuarter_fovTL, sceneQuarter_fovBR]
    show max (π / 4) (-(-(π / 4))) < π / 2
    rw [neg_neg, max_self]
    linarith

/-- C4: updateView with the 0 zoom sentinel sets the zoom to
minZoomNonCentHor (nothing later clamps the zoom again), so
getNormalizedZoom returns 1 afterwards. -/
theorem updateView_minNoMargin (s : Projector) (pPhi pTheta : ℝ) (force : Bool)
    (h : s.minZoomNonCentHor ≠ 0) :
    (s.updateView 0 pPhi pTheta force).getZoom = s.minZoomNonCentHor ∧
      (s.updateView 0 pPhi pTheta force).getNormalizedZoom = 1 := by
  rw [show (s.updateView 0 pPhi pTheta force).getZoom =
      (s.updateView 0 pPhi pTheta force).zoom from rfl,
    show (s.updateView 0 pPhi pTheta force).getNormalizedZoom =
      (s.updateView 0 pPhi pTheta force).zoom /
        (s.updateView 0 pPhi pTheta force).minZoomNonCentHor from rfl,
    updateView_zero]
  by_cases hz : s.minZoomNonCentHor = s.zoom
  · rw [if_pos hz]
    have hMZ :
        (Projector.fitViewOffset
            { s with viewOffsetPhi := pPhi, viewOffsetTheta := pTheta }).minZoomNonCentHor =
          s.minZoomNonCentHor :=
      (derivedGeometry_congr _ s rfl rfl rfl rfl rfl).2.2.2.2.2.2.1
    rw [hMZ]
    have hzoom2 :
        (Projector.fitViewOffset
            { s with viewOffsetPhi := pPhi, viewOffsetTheta := pTheta }).zoom =
          s.minZoomNonCentHor := hz.symm
    rw [hzoom2]
    exact ⟨rfl, div_self h⟩
  · rw [if_neg hz]
    obtain ⟨m1, m2, m3, m4, m5, hzoom, -, -, -, -⟩ :=
      updateDisplayFOV_fst_fields { s with zoom := s.minZoomNonCentHor } force
    have hMZ :
        (Projector.fitViewOffset
            { ((({ s with zoom := s.minZoomNonCentHor }).updateDisplayFOV force).1) with
              viewOffsetPhi := pPhi, viewOffsetTheta := pTheta }).minZoomNonCentHor =
          s.minZoomNonCentHor :=
      (derivedGeometry_congr _ s m1 m2 m3 m4 m5).2.2.2.2.2.2.1
    have hzoom2 :
        (Projector.fitViewOffset
            { ((({ s with zoom := s.minZoomNonCentHor }).updateDisplayFOV force).1) with
              viewOffsetPhi := pPhi, viewOffsetTheta := pTheta }).zoom =
          s.minZoomNonCentHor := hzoom
    rw [hMZ, hzoom2]
    exact ⟨rfl, div_self h⟩

/-- Witness for updateView_minNoMargin on the concrete quarter-pi scene. -/
theorem updateView_minNoMargin_witness :
    (sceneQuarter.updateView 0 (1 / 3) (7 / 10) false).getZoom =
        sceneQuarter.minZoomNonCentHor ∧
      (sceneQuarter.updateView 0 (1 / 3) (7 / 10) false).getNormalizedZoom = 1 := by
  refine updateView_minNoMargin sceneQuarter (1 / 3) (7 / 10) false ?_
  rw [sceneQuarter_minZoomNonCentHor]
  norm_num

lemma updateStaticDisplayTrafoCache_lengths (s : Projector) :
    (s.updateStaticDisplayTrafoCache).staticDisplayTrafosX.length =
        (s.displaySize.1 + 1).toNat ∧
      (s.updateStaticDisplayTrafoCache).staticDisplayTrafosY.length =
        ((s.displaySize.1 + 1) * (s.displaySize.2 + 1)).toNat := by
  unfold Projector.updateStaticDisplayTrafoCache
  constructor <;> dsimp only <;> rw [List.length_map, List.length_range]

lemma updateDisplayFOVSet_cache_lengths (s : Projector) :
    (s.updateDisplayFOVSet).staticDisplayTrafosX.length = (s.displaySize.1 + 1).toNat ∧
      (s.updateDisplayFOVSet).staticDisplayTrafosY.length =
        ((s.displaySize.1 + 1) * (s.displaySize.2 + 1)).toNat :=
  updateStaticDisplayTrafoCache_lengths _

lemma displayTrafoXCached_oob (s : Projector) (i : ℕ)
    (h : s.staticDisplayTrafosX.length ≤ i) : s.displayTrafoXCached i = none := by
  simp [Projector.displayTrafoXCached, List.getElem?_eq_none h]

lemma displayTrafoYCached_oob (s : Projector) (i j : ℕ)
    (h : s.staticDisplayTrafosY.length ≤ (s.displaySize.1 + 1).toNat * i + j) :
    s.displayTrafoYCached i j = none := by
  simp [Projector.displayTrafoYCached, List.getElem?_eq_none h]

lemma calcCached_none_of_tx1_none (s : Projector)
    (h : s.displayTrafoXCached 1 = none) :
    s.calcLowestDisplayTrafoOversamplingCached = none := by
  unfold Projector.calcLowestDisplayTrafoOversamplingCached
  cases h0 : s.displayTrafoXCached 0 <;> simp [h0, h]

/-- C8: a display size of 0 by 0 is accepted by updateDisplaySize, but the
oversampling evaluation inside updateDisplayFOV then reads the transformation
caches out of bounds: both caches have length 1 while indices 1 are read, so
the unchecked vector accesses of the C++ code are undefined behaviour rather
than a clean rejection or an empty-buffer result. -/
theorem updateDisplaySize_zero_cache_oob :
    (({ scene360 with displaySize := (0, 0) } :
          Projector).updateDisplayFOVSet).staticDisplayTrafosX.length = 1 ∧
      (({ scene360 with displaySize := (0, 0) } :
          Projector).updateDisplayFOVSet).staticDisplayTrafosY.length = 1 ∧
      (({ scene360 with displaySize := (0, 0) } :
          Projector).updateDisplayFOVSet).displayTrafoXCached 1 = none ∧
      (({ scene360 with displaySize := (0, 0) } :
          Projector).updateDisplayFOVSet).displayTrafoYCached 1 0 = none ∧
      (({ scene360 with displaySize := (0, 0) } :
          Projector).updateDisplayFOVSet).calcLowestDisplayTrafoOversamplingCached = none := by
  obtain ⟨hx, hy⟩ :=
    updateDisplayFOVSet_cache_lengths ({ scene360 with displaySize := (0, 0) } : Projector)
  have hx1 : (({ scene360 with displaySize := (0, 0) } :
      Projector).updateDisplayFOVSet).staticDisplayTrafosX.length = 1 := by
    rw [hx]
    show ((0 : ℤ) + 1).toNat = 1
    norm_num
  have hy1 : (({ scene360 with displaySize := (0, 0) } :
      Projector).updateDisplayFOVSet).staticDisplayTrafosY.length = 1 := by
    rw [hy]
    show (((0 : ℤ) + 1) * ((0 : ℤ) + 1)).toNat = 1
    norm_num
  have htx : (({ scene360 with displaySize := (0, 0) } :
      Projector).updateDisplayFOVSet).displayTrafoXCached 1 = none :=
    displayTrafoXCached_oob _ 1 (le_of_eq hx1)
  refine ⟨hx1, hy1, htx, ?_, calcCached_none_of_tx1_none _ htx⟩
  apply displayTrafoYCached_oob
  rw [hy1]
  show 1 ≤ ((0 : ℤ) + 1).toNat * 1 + 0
  norm_num

lemma itrunc_intCast (n : ℤ) : itrunc (n : ℝ) = n := by
  unfold itrunc
  split_ifs <;> simp

lemma scene6283_fovCentHor_x : (scene6283.fovCentHor).1 = 6283 / 1000 := by
  show (scene6283.fovBR).1 - (scene6283.fovTL).1 = 6283 / 1000
  show (scene6283.calcBottomRightFOV).1 - (scene6283.calcTopLeftFOV).1 = 6283 / 1000
  unfold Projector.calcBottomRightFOV Projector.calcTopLeftFOV scene6283
  norm_num

/-- C9 counterexample: for a scene with horizontal FOV exactly 6.2830 the
computed flag fovIs360Degrees is true, although 6.2830 rounded to 4 decimal
places is strictly smaller than 2 pi rounded to 4 decimal places, so the
claimed characterisation of the flag fails. -/
theorem fovIs360Degrees_spec_counterexample :
    scene6283.fovIs360Degrees ∧ ¬ spec_is360 ((scene6283.fovCentHor).1) := by
  have h62830 : itrunc ((scene6283.fovCentHor).1 * 10000) = 62830 := by
    rw [scene6283_fovCentHor_x, show ((6283 : ℝ) / 1000) * 10000 = ((62830 : ℤ) : ℝ) by
      norm_num]
    exact itrunc_intCast 62830
  constructor
  · unfold Projector.fovIs360Degrees roundedCompareSmaller
    rw [h62830, itrunc_two_pi_e4]
    norm_num
  · unfold spec_is360 specRounded4
    rw [not_not, scene6283_fovCentHor_x]
    have hl : (⌊(6283 : ℝ) / 1000 * 10000 + 1 / 2⌋ : ℤ) = 62830 := by
      rw [show (6283 : ℝ) / 1000 * 10000 + 1 / 2 = 62830 + 1 / 2 by norm_num]
      rw [Int.floor_eq_iff]
      constructor <;> norm_num
    have hr : (⌊2 * π * 10000 + 1 / 2⌋ : ℤ) = 62832 := by
      have h1 := Real.pi_gt_d6
      have h2 := Real.pi_lt_d6
      rw [Int.floor_eq_iff]
      constructor <;> push_cast <;> nlinarith
    rw [hl, hr]
    norm_num

/-- C9, amended: the flag fovIs360Degrees is true iff the truncated value
itrunc(fovCentHor.x * 10000) is at least 62830, that is at least
itrunc(2 pi * 10000) - 1: the off-by-one in roundedCompareSmaller makes the
flag one 1e-4 step more tolerant than a plain rounded comparison with 2 pi. -/
theorem fovIs360Degrees_iff (s : Projector) :
    s.fovIs360Degrees ↔ 62830 ≤ itrunc ((s.fovCentHor).1 * 10000) := by
  unfold Projector.fovIs360Degrees roundedCompareSmaller
  rw [itrunc_two_pi_e4]
  omega

/-- On a state with freshly filled caches and a display of at least 1 by 1,
the cache-reading oversampling computation agrees with its functional
reading: all four vector reads are in bounds and return the
staticDisplayTrafo values. -/
lemma calcOversampling_cached_eq (s : Projector)
    (hw : 1 ≤ s.displaySize.1) (hh : 1 ≤ s.displaySize.2) :
    (s.updateStaticDisplayTrafoCache).calcLowestDisplayTrafoOversamplingCached =
      some (s.calcLowestDisplayTrafoOversampling) := by
  have hn0 : 0 < (s.displaySize.1 + 1).toNat := by omega
  have hn1 : 1 < (s.displaySize.1 + 1).toNat := by omega
  have hm0 : 0 < ((s.displaySize.1 + 1) * (s.displaySize.2 + 1)).toNat := by
    have : (2 : ℤ) ≤ (s.displaySize.1 + 1) * (s.displaySize.2 + 1) := by nlinarith
    omega
  have hm1 : (s.displaySize.1 + 1).toNat <
      ((s.displaySize.1 + 1) * (s.displaySize.2 + 1)).toNat := by
    have h2 : s.displaySize.1 + 1 < (s.displaySize.1 + 1) * (s.displaySize.2 + 1) := by
      nlinarith
    omega
  have e0 : (s.updateStaticDisplayTrafoCache).displayTrafoXCached 0 =
      some (s.displayTrafoX 0) := by
    unfold Projector.displayTrafoXCached Projector.updateStaticDisplayTrafoCache
    dsimp only
    rw [List.getElem?_map, List.getElem?_range hn0]
    unfold Projector.displayTrafoX
    norm_num
    rfl
  have e1 : (s.updateStaticDisplayTrafoCache).displayTrafoXCached 1 =
      some (s.displayTrafoX 1) := by
    unfold Projector.displayTrafoXCached Projector.updateStaticDisplayTrafoCache
    dsimp only
    rw [List.getElem?_map, List.getElem?_range hn1]
    unfold Projector.displayTrafoX
    norm_num
    rfl
  have e2 : (s.updateStaticDisplayTrafoCache).displayTrafoYCached 0 0 =
      some (s.displayTrafoY 0 0) := by
    unfold Projector.displayTrafoYCached Projector.updateStaticDisplayTrafoCache
    dsimp only
    rw [List.getElem?_map, List.getElem?_range (by simpa using hm0)]
    unfold Projector.displayTrafoY
    norm_num
    rfl
  have e3 : (s.updateStaticDisplayTrafoCache).displayTrafoYCached 1 0 =
      some (s.displayTrafoY 1 0) := by
    unfold Projector.displayTrafoYCached Projector.updateStaticDisplayTrafoCache
    dsimp only
    rw [List.getElem?_map, List.getElem?_range (by simpa using hm1)]
    have hcast : (((s.displaySize.1 + 1).toNat : ℤ)) = s.displaySize.1 + 1 :=
      Int.toNat_of_nonneg (by omega)
    have hdiv : ((s.displaySize.1 + 1).toNat : ℤ) / (s.displaySize.1 + 1) = 1 := by
      rw [hcast]
      exact Int.ediv_self (by omega)
    have hmod : ((s.displaySize.1 + 1).toNat : ℤ) % (s.displaySize.1 + 1) = 0 := by
      rw [hcast]
      exact Int.emod_self
    unfold Projector.displayTrafoY
    simp only [Nat.mul_one, Nat.add_zero, Option.map_some', Option.some.injEq, hdiv, hmod]
    rfl
  unfold Projector.calcLowestDisplayTrafoOversamplingCached
    Projector.calcLowestDisplayTrafoOversampling
  rw [e0, e1, e2, e3]
  rfl

lemma arctan_sub_formula {u v : ℝ} (h : -1 < u * v) :
    arctan u - arctan v = arctan ((u - v) / (1 + u * v)) := by
  have h2 : u * -v < 1 := by nlinarith
  calc arctan u - arctan v = arctan u + arctan (-v) := by
        rw [Real.arctan_neg]
        ring
  _ = arctan ((u + -v) / (1 - u * -v)) := Real.arctan_add h2
  _ = arctan ((u - v) / (1 + u * v)) := by ring_nf

lemma arctan_diff_scaled_antitone {A B t1 t2 : ℝ} (hAB : A ≤ B) (ht2 : 0 < t2)
    (ht : t2 ≤ t1) (habs : |A * B| * t1 ^ 2 < 1) :
    arctan (B * t2) - arctan (A * t2) ≤ arctan (B * t1) - arctan (A * t1) := by
  have ht1 : 0 < t1 := lt_of_lt_of_le ht2 ht
  have hle := le_abs_self (A * B)
  have hge := neg_abs_le (A * B)
  have hts : t2 ^ 2 ≤ t1 ^ 2 := by nlinarith
  have habs0 : 0 ≤ |A * B| := abs_nonneg _
  have hAB1 : -1 < B * t1 * (A * t1) := by nlinarith [sq_nonneg t1]
  have hAB2 : -1 < B * t2 * (A * t2) := by nlinarith [sq_nonneg t2]
  have hd1 : 0 < 1 + B * t1 * (A * t1) := by nlinarith
  have hd2 : 0 < 1 + B * t2 * (A * t2) := by nlinarith
  have hprod : 0 < t1 * t2 := mul_pos ht1 ht2
  have hp1 : |A * B| * (t1 * t2) ≤ |A * B| * t1 ^ 2 := by
    nlinarith [mul_nonneg ht1.le (sub_nonneg.mpr ht)]
  have hp2 : A * B * (t1 * t2) ≤ |A * B| * (t1 * t2) := by
    nlinarith [mul_nonneg (sub_nonneg.mpr hle) hprod.le]
  have hABt : A * B * (t1 * t2) ≤ 1 := by linarith
  rw [arctan_sub_formula hAB2, arctan_sub_formula hAB1]
  apply arctan_strictMono.monotone
  rw [div_le_div_iff hd2 hd1]
  nlinarith [mul_nonneg (mul_nonneg (sub_nonneg.mpr hAB) (sub_nonneg.mpr ht))
      (sub_nonneg.mpr hABt)]

lemma sin_atan2_neg_x {y x : ℝ} (hy : 0 ≤ y) (hx : x < 0) :
    sin (atan2 y x) = y / Real.sqrt (x ^ 2 + y ^ 2) := by
  unfold atan2
  rw [if_neg (by linarith : ¬ (0 < x)), if_pos hx, if_pos hy]
  rw [Real.sin_add_pi, Real.sin_arctan]
  have hxne : x ≠ 0 := ne_of_lt hx
  have hx2 : (0 : ℝ) < x ^ 2 := by positivity
  have hxy : (0 : ℝ) < x ^ 2 + y ^ 2 := by nlinarith [sq_nonneg y]
  have hs : 0 < Real.sqrt (x ^ 2 + y ^ 2) := Real.sqrt_pos.mpr hxy
  have hsne : Real.sqrt (x ^ 2 + y ^ 2) ≠ 0 := ne_of_gt hs
  rw [show 1 + (y / x) ^ 2 = (x ^ 2 + y ^ 2) / x ^ 2 by field_simp]
  rw [Real.sqrt_div hxy.le, Real.sqrt_sq_eq_abs, abs_of_neg hx]
  rw [show y / x / (Real.sqrt (x ^ 2 + y ^ 2) / -x) = -(y / Real.sqrt (x ^ 2 + y ^ 2)) by
    field_simp
    ring]
  ring

lemma abs_mul_sub_one_le_sq {c : ℝ} (hc : 1 / 2 ≤ c) : |c * (c - 1)| ≤ c ^ 2 := by
  rcases abs_cases (c * (c - 1)) with ⟨he, -⟩ | ⟨he, -⟩ <;> rw [he] <;> nlinarith

lemma atan2_pos_x (y x : ℝ) (hx : 0 < x) : atan2 y x = arctan (y / x) := by
  unfold atan2
  rw [if_pos hx]

/-- Closed form of the oversampling metric for a state with positive focal
length and positive display width: both one-pixel deltas are arctangent
differences. -/
lemma calcOversampling_eval (s : Projector) (hf : 0 < s.f)
    (hw : 0 < (s.displaySize.1 : ℝ)) :
    s.calcLowestDisplayTrafoOversampling =
      min ((arctan ((1 - (s.displaySize.1 : ℝ) / 2) / s.f) -
            arctan ((0 - (s.displaySize.1 : ℝ) / 2) / s.f)) *
           (s.panoSphereSize.1 : ℝ) / (s.fovCentHor).1)
        ((arctan ((1 - (s.displaySize.2 : ℝ) / 2) / s.f *
              (s.f / Real.sqrt (((s.displaySize.1 : ℝ) / 2) ^ 2 + s.f ^ 2))) -
          arctan ((0 - (s.displaySize.2 : ℝ) / 2) / s.f *
              (s.f / Real.sqrt (((s.displaySize.1 : ℝ) / 2) ^ 2 + s.f ^ 2)))) *
           (s.panoSphereSize.2 : ℝ) / (s.fovCentHor).2) := by
  have hwx : (0 : ℝ) - (s.displaySize.1 : ℝ) / 2 < 0 := by linarith
  have hsin : sin (atan2 s.f ((0 : ℝ) - (s.displaySize.1 : ℝ) / 2)) =
      s.f / Real.sqrt (((s.displaySize.1 : ℝ) / 2) ^ 2 + s.f ^ 2) := by
    rw [sin_atan2_neg_x hf.le hwx]
    rw [show ((0 : ℝ) - (s.displaySize.1 : ℝ) / 2) ^ 2 =
        ((s.displaySize.1 : ℝ) / 2) ^ 2 by ring]
  unfold Projector.calcLowestDisplayTrafoOversampling Projector.displayTrafoX
    Projector.displayTrafoY Projector.staticDisplayTrafoX Projector.staticDisplayTrafoY
  push_cast
  rw [atan2_pos_x _ _ hf, atan2_pos_x _ _ hf, hsin]
  congr 1 <;> ring

lemma abs_prod_le_div_sq_lt_one {c F : ℝ} (hc : 1 / 2 ≤ c) (hcF : c < F) :
    |(0 - c) * (1 - c)| * (1 / F) ^ 2 < 1 := by
  have hF : 0 < F := lt_of_le_of_lt (by linarith) hcF
  have h1 : |(0 - c) * (1 - c)| ≤ c ^ 2 := by
    rw [show (0 - c) * (1 - c) = c * (c - 1) by ring]
    exact abs_mul_sub_one_le_sq hc
  have ht : (1 / F) ^ 2 = 1 / F ^ 2 := by
    rw [div_pow, one_pow]
  rw [ht, mul_one_div, div_lt_one (by positivity)]
  nlinarith

lemma abs_prod_inv_sqrt_sq_lt_one {c d F : ℝ} (hc : 1 / 2 ≤ c) (hd : 0 < d)
    (hcF : c ≤ F) :
    |(0 - c) * (1 - c)| * (1 / Real.sqrt (d ^ 2 + F ^ 2)) ^ 2 < 1 := by
  have hS : 0 < d ^ 2 + F ^ 2 := by positivity
  have h1 : |(0 - c) * (1 - c)| ≤ c ^ 2 := by
    rw [show (0 - c) * (1 - c) = c * (c - 1) by ring]
    exact abs_mul_sub_one_le_sq hc
  have ht : (1 / Real.sqrt (d ^ 2 + F ^ 2)) ^ 2 = 1 / (d ^ 2 + F ^ 2) := by
    rw [div_pow, one_pow, Real.sq_sqrt hS.le]
  rw [ht, mul_one_div, div_lt_one hS]
  nlinarith

lemma arctan_div_diff_antitone {A B F1 F2 : ℝ} (hAB : A ≤ B) (hF1 : 0 < F1)
    (hF12 : F1 ≤ F2) (habs : |A * B| * (1 / F1) ^ 2 < 1) :
    arctan (B / F2) - arctan (A / F2) ≤ arctan (B / F1) - arctan (A / F1) := by
  have h2 : 0 < (1 : ℝ) / F2 := by
    have : 0 < F2 := lt_of_lt_of_le hF1 hF12
    positivity
  have h21 : 1 / F2 ≤ 1 / F1 := one_div_le_one_div_of_le hF1 hF12
  have h := arctan_diff_scaled_antitone hAB h2 h21 habs
  simpa [mul_one_div] using h

lemma arctan_div_sqrt_diff_antitone {A B d F1 F2 : ℝ} (hAB : A ≤ B) (hF1 : 0 < F1)
    (hF12 : F1 ≤ F2)
    (habs : |A * B| * (1 / Real.sqrt (d ^ 2 + F1 ^ 2)) ^ 2 < 1) :
    arctan (B / F2 * (F2 / Real.sqrt (d ^ 2 + F2 ^ 2))) -
        arctan (A / F2 * (F2 / Real.sqrt (d ^ 2 + F2 ^ 2))) ≤
      arctan (B / F1 * (F1 / Real.sqrt (d ^ 2 + F1 ^ 2))) -
        arctan (A / F1 * (F1 / Real.sqrt (d ^ 2 + F1 ^ 2))) := by
  have hF2 : 0 < F2 := lt_of_lt_of_le hF1 hF12
  have hS1 : (0 : ℝ) < d ^ 2 + F1 ^ 2 := by positivity
  have hS2 : (0 : ℝ) < d ^ 2 + F2 ^ 2 := by positivity
  have hsq1 : 0 < Real.sqrt (d ^ 2 + F1 ^ 2) := Real.sqrt_pos.mpr hS1
  have hsq2 : 0 < Real.sqrt (d ^ 2 + F2 ^ 2) := Real.sqrt_pos.mpr hS2
  have e1 : ∀ a : ℝ, a / F1 * (F1 / Real.sqrt (d ^ 2 + F1 ^ 2)) =
      a * (1 / Real.sqrt (d ^ 2 + F1 ^ 2)) := by
    intro a
    field_simp
  have e2 : ∀ a : ℝ, a / F2 * (F2 / Real.sqrt (d ^ 2 + F2 ^ 2)) =
      a * (1 / Real.sqrt (d ^ 2 + F2 ^ 2)) := by
    intro a
    field_simp
  rw [e1, e1, e2, e2]
  have hsle : Real.sqrt (d ^ 2 + F1 ^ 2) ≤ Real.sqrt (d ^ 2 + F2 ^ 2) :=
    Real.sqrt_le_sqrt (by nlinarith)
  exact arctan_diff_scaled_antitone hAB (by positivity)
    (one_div_le_one_div_of_le hsq1 hsle) habs

/-- C7, amended: at fixed display size and fixed panorama sphere size the
oversampling metric is antitone in the zoom, provided the focal length
f = f0 * zoom already exceeds half the display width and at least half the
display height at the smaller zoom.  (Below that threshold the metric can
grow with the zoom, see oversampling_zoom_counterexample.) -/
theorem oversampling_zoom_antitone (s : Projector) (z1 z2 : ℝ)
    (hw : 1 ≤ s.displaySize.1) (hh : 1 ≤ s.displaySize.2)
    (hSX : 0 ≤ s.panoSphereSize.1) (hSY : 0 ≤ s.panoSphereSize.2)
    (hfovX : 0 < (s.fovCentHor).1) (hfovY : 0 < (s.fovCentHor).2)
    (htan : 0 < tan ((s.fovCentHor).2 / 2))
    (hz : z1 ≤ z2)
    (hfw : (s.displaySize.1 : ℝ) / 2 < (s.setZoomUpdateF z1).f)
    (hfh : (s.displaySize.2 : ℝ) / 2 ≤ (s.setZoomUpdateF z1).f) :
    (s.setZoomUpdateF z2).calcLowestDisplayTrafoOversampling ≤
      (s.setZoomUpdateF z1).calcLowestDisplayTrafoOversampling := by
  have hw1 : (1 : ℝ) ≤ (s.displaySize.1 : ℝ) := by exact_mod_cast hw
  have hh1 : (1 : ℝ) ≤ (s.displaySize.2 : ℝ) := by exact_mod_cast hh
  have hSX1 : (0 : ℝ) ≤ (s.panoSphereSize.1 : ℝ) := by exact_mod_cast hSX
  have hSY1 : (0 : ℝ) ≤ (s.panoSphereSize.2 : ℝ) := by exact_mod_cast hSY
  have hf0 : 0 < (s.displaySize.2 : ℝ) / 2 / tan ((s.fovCentHor).2 / 2) :=
    div_pos (by linarith) htan
  have hF1e : (s.setZoomUpdateF z1).f =
      (s.displaySize.2 : ℝ) / 2 / tan ((s.fovCentHor).2 / 2) * z1 := rfl
  have hF2e : (s.setZoomUpdateF z2).f =
      (s.displaySize.2 : ℝ) / 2 / tan ((s.fovCentHor).2 / 2) * z2 := rfl
  have hF1pos : 0 < (s.setZoomUpdateF z1).f := lt_trans (by linarith) hfw
  have hff : (s.setZoomUpdateF z1).f ≤ (s.setZoomUpdateF z2).f := by
    rw [hF1e, hF2e]
    exact mul_le_mul_of_nonneg_left hz hf0.le
  have hF2pos : 0 < (s.setZoomUpdateF z2).f := lt_of_lt_of_le hF1pos hff
  have hw2 : (0 : ℝ) < (s.displaySize.1 : ℝ) := by linarith
  rw [calcOversampling_eval _ hF2pos hw2, calcOversampling_eval _ hF1pos hw2]
  simp only [show (s.setZoomUpdateF z1).displaySize = s.displaySize from rfl,
    show (s.setZoomUpdateF z2).displaySize = s.displaySize from rfl,
    show (s.setZoomUpdateF z1).panoSphereSize = s.panoSphereSize from rfl,
    show (s.setZoomUpdateF z2).panoSphereSize = s.panoSphereSize from rfl,
    show (s.setZoomUpdateF z1).fovCentHor = s.fovCentHor from rfl,
    show (s.setZoomUpdateF z2).fovCentHor = s.fovCentHor from rfl]
  apply min_le_min
  · have hAB : (0 : ℝ) - (s.displaySize.1 : ℝ) / 2 ≤ 1 - (s.displaySize.1 : ℝ) / 2 := by
      linarith
    have habs := @abs_prod_le_div_sq_lt_one ((s.displaySize.1 : ℝ) / 2)
      ((s.setZoomUpdateF z1).f) (by linarith) hfw
    have hd := arctan_div_diff_antitone hAB hF1pos hff habs
    have h1 := mul_le_mul_of_nonneg_right hd hSX1
    exact (div_le_div_right hfovX).mpr h1
  · have hAB : (0 : ℝ) - (s.displaySize.2 : ℝ) / 2 ≤ 1 - (s.displaySize.2 : ℝ) / 2 := by
      linarith
    have habs := @abs_prod_inv_sqrt_sq_lt_one ((s.displaySize.2 : ℝ) / 2)
      ((s.displaySize.1 : ℝ) / 2) ((s.setZoomUpdateF z1).f) (by linarith)
      (by linarith) hfh
    have hd := arctan_div_sqrt_diff_antitone hAB hF1pos hff habs
    have h1 := mul_le_mul_of_nonneg_right hd hSY1
    exact (div_le_div_right hfovY).mpr h1

lemma sceneC7_fovTL : sceneC7.fovTL = (0, arctan 4) := by
  show sceneC7.calcTopLeftFOV = (0, arctan 4)
  unfold Projector.calcTopLeftFOV sceneC7
  norm_num

lemma sceneC7_fovBR : sceneC7.fovBR = (3, -arctan 4) := by
  show sceneC7.calcBottomRightFOV = (3, -arctan 4)
  unfold Projector.calcBottomRightFOV sceneC7
  norm_num

lemma sceneC7_fovCentHor : sceneC7.fovCentHor = (3, 2 * arctan 4) := by
  unfold Projector.fovCentHor
  rw [sceneC7_fovTL, sceneC7_fovBR]
  norm_num

lemma sceneC7_f (z : ℝ) : (sceneC7.setZoomUpdateF z).f = z := by
  show (sceneC7.displaySize.2 : ℝ) / 2 / tan ((sceneC7.fovCentHor).2 / 2) * z = z
  rw [sceneC7_fovCentHor]
  show ((8 : ℤ) : ℝ) / 2 / tan (2 * arctan 4 / 2) * z = z
  rw [show (2 * arctan 4 / 2 : ℝ) = arctan 4 by ring, Real.tan_arctan]
  norm_num

lemma arctan_third_lt_arctan_sqrt2_quarter :
    arctan ((1 : ℝ) / 3) < arctan (Real.sqrt 2 / 4) := by
  apply Real.arctan_strictMono
  have h2 : Real.sqrt 2 ^ 2 = 2 := Real.sq_sqrt (by norm_num)
  have h2n : (0 : ℝ) ≤ Real.sqrt 2 := Real.sqrt_nonneg 2
  nlinarith [h2, h2n]

lemma arctan_sqrt5_lt_arctan_sqrt6 :
    arctan (Real.sqrt 5 / 17) < arctan (Real.sqrt 6 / 18) := by
  apply Real.arctan_strictMono
  have h5 : Real.sqrt 5 ^ 2 = 5 := Real.sq_sqrt (by norm_num)
  have h6 : Real.sqrt 6 ^ 2 = 6 := Real.sq_sqrt (by norm_num)
  have h5n : (0 : ℝ) ≤ Real.sqrt 5 := Real.sqrt_nonneg 5
  have h6n : (0 : ℝ) ≤ Real.sqrt 6 := Real.sqrt_nonneg 6
  nlinarith [h5, h6, h5n, h6n]

/-- Witness for the amended C7 monotonicity on the concrete quarter-pi scene
at zooms 2 and 3 (where f = zoom exceeds both display half extents). -/
theorem oversampling_zoom_antitone_witness :
    (sceneQuarter.setZoomUpdateF 3).calcLowestDisplayTrafoOversampling ≤
      (sceneQuarter.setZoomUpdateF 2).calcLowestDisplayTrafoOversampling := by
  have htan : (0 : ℝ) < tan ((sceneQuarter.fovCentHor).2 / 2) := by
    rw [sceneQuarter_fovCentHor]
    show (0 : ℝ) < tan (π / 2 / 2)
    rw [show (π / 2 / 2 : ℝ) = π / 4 by ring, Real.tan_pi_div_four]
    norm_num
  have hf2 : (sceneQuarter.setZoomUpdateF 2).f = 2 := by
    show (sceneQuarter.displaySize.2 : ℝ) / 2 / tan ((sceneQuarter.fovCentHor).2 / 2) * 2 = 2
    rw [sceneQuarter_fovCentHor]
    show ((2 : ℤ) : ℝ) / 2 / tan (π / 2 / 2) * 2 = 2
    rw [show (π / 2 / 2 : ℝ) = π / 4 by ring, Real.tan_pi_div_four]
    norm_num
  refine oversampling_zoom_antitone sceneQuarter 2 3 (by decide) (by decide) (by decide)
    (by decide) ?_ ?_ htan (by norm_num) ?_ ?_
  · rw [sceneQuarter_fovCentHor]
    exact Real.pi_pos
  · rw [sceneQuarter_fovCentHor]
    show (0 : ℝ) < π / 2
    positivity
  · rw [hf2]
    show ((2 : ℤ) : ℝ) / 2 < 2
    norm_num
  · rw [hf2]
    show ((2 : ℤ) : ℝ) / 2 ≤ 2
    norm_num

set_option maxHeartbeats 1000000 in
/-- C7, counterexample to the literal claim: on sceneC7 the zoom increases
from 1 to sqrt 2 yet the oversampling metric strictly increases. -/
theorem oversampling_zoom_counterexample :
    (1 : ℝ) ≤ Real.sqrt 2 ∧
      (sceneC7.setZoomUpdateF 1).calcLowestDisplayTrafoOversampling <
        (sceneC7.setZoomUpdateF (Real.sqrt 2)).calcLowestDisplayTrafoOversampling := by
  constructor
  · rw [show (1 : ℝ) = Real.sqrt 1 from Real.sqrt_one.symm]
    exact Real.sqrt_le_sqrt (by norm_num)
  · have hs2 : (0 : ℝ) < Real.sqrt 2 := Real.sqrt_pos.mpr (by norm_num)
    have hf1 : (sceneC7.setZoomUpdateF 1).f = 1 := sceneC7_f 1
    have hfs : (sceneC7.setZoomUpdateF (Real.sqrt 2)).f = Real.sqrt 2 :=
      sceneC7_f (Real.sqrt 2)
    have hp1 : 0 < (sceneC7.setZoomUpdateF 1).f := by
      rw [hf1]
      norm_num
    have hps : 0 < (sceneC7.setZoomUpdateF (Real.sqrt 2)).f := by
      rw [hfs]
      exact hs2
    have hw2 : (0 : ℝ) < ((sceneC7.setZoomUpdateF 1).displaySize.1 : ℝ) := by
      show (0 : ℝ) < ((4 : ℤ) : ℝ)
      norm_num
    rw [calcOversampling_eval _ hp1 hw2, calcOversampling_eval _ hps hw2]
    rw [hf1, hfs]
    simp only [show (sceneC7.setZoomUpdateF 1).displaySize = ((4 : ℤ), (8 : ℤ)) from rfl,
      show (sceneC7.setZoomUpdateF (Real.sqrt 2)).displaySize = ((4 : ℤ), (8 : ℤ)) from rfl,
      show (sceneC7.setZoomUpdateF 1).panoSphereSize = ((10 : ℤ), (10 : ℤ)) from rfl,
      show (sceneC7.setZoomUpdateF (Real.sqrt 2)).panoSphereSize = ((10 : ℤ), (10 : ℤ)) from
        rfl,
      show (sceneC7.setZoomUpdateF 1).fovCentHor = sceneC7.fovCentHor from rfl,
      show (sceneC7.setZoomUpdateF (Real.sqrt 2)).fovCentHor = sceneC7.fovCentHor from rfl,
      sceneC7_fovCentHor]
    norm_num
    have hss2 : Real.sqrt 2 * Real.sqrt 2 = 2 := Real.mul_self_sqrt (by norm_num)
    have h5p : (0 : ℝ) < Real.sqrt 5 := Real.sqrt_pos.mpr (by norm_num)
    have hss5 : Real.sqrt 5 * Real.sqrt 5 = 5 := Real.mul_self_sqrt (by norm_num)
    have hsq5 : Real.sqrt 5 ^ 2 = 5 := Real.sq_sqrt (by norm_num)
    have h6p : (0 : ℝ) < Real.sqrt 6 := Real.sqrt_pos.mpr (by norm_num)
    have hss6 : Real.sqrt 6 * Real.sqrt 6 = 6 := Real.mul_self_sqrt (by norm_num)
    have hsq6 : Real.sqrt 6 ^ 2 = 6 := Real.sq_sqrt (by norm_num)
    have hsq2 : Real.sqrt 2 ^ 2 = 2 := Real.sq_sqrt (by norm_num)
    have hX1 : -(π / 4) + arctan (2 : ℝ) = arctan (1 / 3) := by
      rw [show -(π / 4) + arctan (2 : ℝ) = arctan 2 - arctan 1 by rw [Real.arctan_one]; ring]
      rw [arctan_sub_formula (by norm_num : (-1 : ℝ) < 2 * 1)]
      norm_num
    have hX2 : arctan (-1 / Real.sqrt 2) - arctan (-2 / Real.sqrt 2) =
        arctan (Real.sqrt 2 / 4) := by
      have huv : -1 / Real.sqrt 2 * (-2 / Real.sqrt 2) = 1 := by
        rw [div_mul_div_comm, hss2]
        norm_num
      rw [arctan_sub_formula (by rw [huv]; norm_num)]
      congr 1
      rw [huv, div_sub_div_same]
      field_simp
      nlinarith [hss2, hsq2]
    have hY1 : -arctan (3 * (Real.sqrt 5)⁻¹) + arctan (4 * (Real.sqrt 5)⁻¹) =
        arctan (Real.sqrt 5 / 17) := by
      rw [show -arctan (3 * (Real.sqrt 5)⁻¹) + arctan (4 * (Real.sqrt 5)⁻¹) =
          arctan (4 * (Real.sqrt 5)⁻¹) - arctan (3 * (Real.sqrt 5)⁻¹) by ring]
      have huv : 4 * (Real.sqrt 5)⁻¹ * (3 * (Real.sqrt 5)⁻¹) = 12 / 5 := by
        field_simp
        nlinarith [hss5, hsq5]
      rw [arctan_sub_formula (by rw [huv]; norm_num)]
      congr 1
      rw [huv]
      field_simp
      nlinarith [hss5, hsq5]
    have hY2 : arctan (-3 / Real.sqrt 2 * (Real.sqrt 2 / Real.sqrt 6)) -
        arctan (-4 / Real.sqrt 2 * (Real.sqrt 2 / Real.sqrt 6)) =
        arctan (Real.sqrt 6 / 18) := by
      have e3 : -3 / Real.sqrt 2 * (Real.sqrt 2 / Real.sqrt 6) = -3 / Real.sqrt 6 := by
        rw [div_mul_div_comm, mul_comm (Real.sqrt 2)]
        rw [mul_div_mul_right _ _ (ne_of_gt hs2)]
      have e4 : -4 / Real.sqrt 2 * (Real.sqrt 2 / Real.sqrt 6) = -4 / Real.sqrt 6 := by
        rw [div_mul_div_comm, mul_comm (Real.sqrt 2)]
        rw [mul_div_mul_right _ _ (ne_of_gt hs2)]
      rw [e3, e4]
      have huv : -3 / Real.sqrt 6 * (-4 / Real.sqrt 6) = 2 := by
        rw [div_mul_div_comm, hss6]
        norm_num
      rw [arctan_sub_formula (by rw [huv]; norm_num)]
      congr 1
      rw [huv, div_sub_div_same]
      field_simp
      nlinarith [hss6, hsq6]
    rw [hX1, hX2, hY1, hY2]
    constructor
    · left
      have h := arctan_third_lt_arctan_sqrt2_quarter
      linarith
    · right
      have hq : (0 : ℝ) < arctan 4 := by
        rw [show (0 : ℝ) = arctan 0 from Real.arctan_zero.symm]
        exact Real.arctan_strictMono (by norm_num)
      have h := arctan_sqrt5_lt_arctan_sqrt6
      have h2q : (0 : ℝ) < 2 * arctan 4 := by linarith
      exact (div_lt_div_right h2q).mpr (by linarith)

lemma lt_itrunc_add_one (x : ℝ) : x < (itrunc x : ℝ) + 1 := by
  unfold itrunc
  split_ifs with h
  · push_cast
    have := Int.le_ceil x
    linarith
  · push_cast
    exact Int.lt_floor_add_one x

lemma itrunc_le_self_of_nonneg {x : ℝ} (h : 0 ≤ x) : (itrunc x : ℝ) ≤ x := by
  rw [itrunc_of_nonneg h]
  exact Int.floor_le x

lemma itrunc_nonpos_of_neg {x : ℝ} (h : x < 0) : itrunc x ≤ 0 := by
  unfold itrunc
  rw [if_pos h]
  exact Int.ceil_le.mpr (by exact_mod_cast h.le)

lemma itrunc_zero : itrunc (0 : ℝ) = 0 := by
  rw [show (0 : ℝ) = ((0 : ℤ) : ℝ) by norm_num, itrunc_intCast]

lemma interpXWeight_nonneg {pTLx pBRx : ℝ} (h : 0 ≤ pBRx) (ix : ℤ) :
    0 ≤ interpXWeight pTLx pBRx ix := by
  unfold interpXWeight
  split_ifs
  · have := lt_itrunc_add_one pTLx
    linarith
  · have := itrunc_le_self_of_nonneg h
    linarith
  · norm_num

lemma interpYWeight_nonneg {pTLy pBRy : ℝ} (h : 0 ≤ pBRy) (iy : ℤ) :
    0 ≤ interpYWeight pTLy pBRy iy := by
  unfold interpYWeight
  split_ifs
  · have := lt_itrunc_add_one pTLy
    linarith
  · have := itrunc_le_self_of_nonneg h
    linarith
  · norm_num

lemma interpTermWeight_nonneg (srcSize : ℤ × ℤ) (is360 : Prop)
    {pTLx pTLy pBRx pBRy : ℝ} (hx : 0 ≤ pBRx) (hy : 0 ≤ pBRy) (iy ix : ℤ) :
    0 ≤ interpTermWeight srcSize is360 pTLx pTLy pBRx pBRy iy ix := by
  unfold interpTermWeight
  split_ifs
  · exact mul_nonneg (interpXWeight_nonneg hx ix) (interpYWeight_nonneg hy iy)
  · exact le_refl 0

lemma interpXWeight_pos {pTLx pBRx : ℝ} {px : ℤ} (hxlt : (px : ℝ) < pBRx)
    (hBRx : 0 ≤ pBRx) (htx : itrunc pTLx ≤ px) :
    0 < interpXWeight pTLx pBRx (px - itrunc pTLx) := by
  unfold interpXWeight
  split_ifs with h1 h2
  · have := lt_itrunc_add_one pTLx
    linarith
  · have hpxeq : px = itrunc pBRx := by
      unfold interpNx at h2
      omega
    have : (itrunc pBRx : ℝ) < pBRx := by
      rw [← hpxeq]
      exact hxlt
    linarith
  · norm_num

lemma interpYWeight_pos {pTLy pBRy : ℝ} {py : ℤ} (hylt : (py : ℝ) < pBRy)
    (hBRy : 0 ≤ pBRy) (hty : itrunc pTLy ≤ py) :
    0 < interpYWeight pTLy pBRy (py - itrunc pTLy) := by
  unfold interpYWeight
  split_ifs with h1 h2
  · have := lt_itrunc_add_one pTLy
    linarith
  · have hpyeq : py = itrunc pBRy := by
      unfold interpNy at h2
      omega
    have : (itrunc pBRy : ℝ) < pBRy := by
      rw [← hpyeq]
      exact hylt
    linarith
  · norm_num

/-- totalWeight is strictly positive as soon as one source pixel (px, py) is
vertically and horizontally in bounds and overlaps the transformed rectangle
with positive area. -/
lemma interpTotalWeight_pos (srcSize : ℤ × ℤ) (is360 : Prop)
    (pTLx pTLy pBRx pBRy : ℝ) (px py : ℤ)
    (hBRx : 0 ≤ pBRx) (hBRy : 0 ≤ pBRy)
    (hxlt : (px : ℝ) < pBRx) (hxgt : pTLx < (px : ℝ) + 1)
    (hylt : (py : ℝ) < pBRy) (hygt : pTLy < (py : ℝ) + 1)
    (hpx0 : 0 ≤ px) (hpxW : px < srcSize.1)
    (hpy0 : 0 ≤ py) (hpyH : py < srcSize.2) :
    0 < interpolateTotalWeight srcSize is360 pTLx pTLy pBRx pBRy := by
  have htx : itrunc pTLx ≤ px := by
    rcases lt_or_le pTLx 0 with h | h
    · have := itrunc_nonpos_of_neg h
      omega
    · have h1 : (itrunc pTLx : ℝ) ≤ pTLx := itrunc_le_self_of_nonneg h
      have h2 : (itrunc pTLx : ℝ) < (px : ℝ) + 1 := lt_of_le_of_lt h1 hxgt
      have h3 : itrunc pTLx < px + 1 := by exact_mod_cast h2
      omega
  have hty : itrunc pTLy ≤ py := by
    rcases lt_or_le pTLy 0 with h | h
    · have := itrunc_nonpos_of_neg h
      omega
    · have h1 : (itrunc pTLy : ℝ) ≤ pTLy := itrunc_le_self_of_nonneg h
      have h2 : (itrunc pTLy : ℝ) < (py : ℝ) + 1 := lt_of_le_of_lt h1 hygt
      have h3 : itrunc pTLy < py + 1 := by exact_mod_cast h2
      omega
  have hbx : px ≤ itrunc pBRx := by
    rw [itrunc_of_nonneg hBRx]
    exact Int.le_floor.mpr hxlt.le
  have hby : py ≤ itrunc pBRy := by
    rw [itrunc_of_nonneg hBRy]
    exact Int.le_floor.mpr hylt.le
  unfold interpolateTotalWeight
  apply Finset.sum_pos'
  · intro i _
    apply Finset.sum_nonneg
    intro j _
    exact interpTermWeight_nonneg srcSize is360 hBRx hBRy _ _
  · refine ⟨(py - itrunc pTLy).toNat, ?_, ?_⟩
    · rw [Finset.mem_range]
      unfold interpNy
      omega
    · apply Finset.sum_pos'
      · intro j _
        exact interpTermWeight_nonneg srcSize is360 hBRx hBRy _ _
      · refine ⟨(px - itrunc pTLx).toNat, ?_, ?_⟩
        · rw [Finset.mem_range]
          unfold interpNx
          omega
        · rw [Int.toNat_of_nonneg (by omega : 0 ≤ py - itrunc pTLy),
            Int.toNat_of_nonneg (by omega : 0 ≤ px - itrunc pTLx)]
          unfold interpTermWeight
          rw [if_pos]
          · exact mul_pos (interpXWeight_pos hxlt hBRx htx)
              (interpYWeight_pos hylt hBRy hty)
          · refine ⟨by omega, by omega, Or.inr ?_⟩
            unfold interpWrap
            rw [if_neg (by omega), if_neg (by omega)]

/-- totalWeight is zero when no loop iteration contributes. -/
lemma interpTotalWeight_eq_zero (srcSize : ℤ × ℤ) (is360 : Prop)
    (pTLx pTLy pBRx pBRy : ℝ)
    (h : ∀ iy ix : ℤ, 0 ≤ iy → iy < interpNy pTLy pBRy → 0 ≤ ix →
      ix < interpNx pTLx pBRx →
      ¬ interpCounted srcSize is360 pTLx pTLy pBRx pBRy iy ix) :
    interpolateTotalWeight srcSize is360 pTLx pTLy pBRx pBRy = 0 := by
  unfold interpolateTotalWeight
  apply Finset.sum_eq_zero
  intro i hi
  rw [Finset.mem_range] at hi
  apply Finset.sum_eq_zero
  intro j hj
  rw [Finset.mem_range] at hj
  unfold interpTermWeight
  rw [if_neg (h (i : ℤ) (j : ℤ) (by omega) (by omega) (by omega) (by omega))]

/-- The area-weighted mean of interpolatePixel is the constant c whenever
every counted source read with non-zero weight yields c. -/
lemma interpolatePixelChannel_const (srcSize : ℤ × ℤ) (is360 : Prop)
    (chan : ℤ → ℤ → ℝ) (pTLx pTLy pBRx pBRy : ℝ) (c : ℝ)
    (hTW : 0 < interpolateTotalWeight srcSize is360 pTLx pTLy pBRx pBRy)
    (hchan : ∀ iy ix : ℤ, 0 ≤ iy → iy < interpNy pTLy pBRy → 0 ≤ ix →
      ix < interpNx pTLx pBRx →
      interpTermWeight srcSize is360 pTLx pTLy pBRx pBRy iy ix ≠ 0 →
      chan (interpReadX srcSize.1 pTLx ix) (itrunc pTLy + iy) = c) :
    interpolatePixelChannel srcSize is360 chan pTLx pTLy pBRx pBRy = c := by
  unfold interpolatePixelChannel
  have hsum : interpolateChannelSum srcSize is360 chan pTLx pTLy pBRx pBRy =
      c * interpolateTotalWeight srcSize is360 pTLx pTLy pBRx pBRy := by
    unfold interpolateChannelSum interpolateTotalWeight
    rw [Finset.mul_sum]
    apply Finset.sum_congr rfl
    intro i hi
    rw [Finset.mem_range] at hi
    rw [Finset.mul_sum]
    apply Finset.sum_congr rfl
    intro j hj
    rw [Finset.mem_range] at hj
    rcases eq_or_ne (interpTermWeight srcSize is360 pTLx pTLy pBRx pBRy (i : ℤ) (j : ℤ)) 0
      with h0 | h0
    · rw [h0]
      ring
    · rw [hchan (i : ℤ) (j : ℤ) (by omega) (by omega) (by omega) (by omega) h0]
      ring
  rw [hsum, mul_div_assoc, div_self (ne_of_gt hTW), mul_one]

/-- When the transformed display rectangle lies within the sphere buffer the
horizontal fixups of the display loop are the identity. -/
lemma displayPixel_of_inRange (s : Projector) (chan : ℤ → ℤ → ℝ) (x y : ℤ)
    (h1 : 0 ≤ s.displayTrafoX x)
    (h2 : s.displayTrafoX x ≤ s.displayTrafoX (x + 1))
    (h3 : itrunc (s.displayTrafoX (x + 1)) < s.panoSphereSize.1) :
    s.displayPixel chan x y =
      interpolatePixelChannel s.panoSphereSize s.fovIs360Degrees chan
        (s.displayTrafoX x) (s.displayTrafoY y x) (s.displayTrafoX (x + 1))
        (s.displayTrafoY (y + 1) (x + 1)) := by
  unfold Projector.displayPixel
  dsimp only
  split_ifs <;> first | rfl | linarith | omega

/-- C10: interpolatePixel divides by the accumulated totalWeight with no
guard: the written channel is always the weighted sum divided by
totalWeight; totalWeight is strictly positive whenever some in-bounds source
pixel (needing no wrap) overlaps the rectangle with positive area, and it is
zero when no loop iteration contributes (the division then has a zero
divisor). -/
theorem interpolatePixel_totalWeight_spec (srcSize : ℤ × ℤ) (is360 : Prop)
    (pTLx pTLy pBRx pBRy : ℝ) :
    (∀ chan : ℤ → ℤ → ℝ,
      interpolatePixelChannel srcSize is360 chan pTLx pTLy pBRx pBRy =
        interpolateChannelSum srcSize is360 chan pTLx pTLy pBRx pBRy /
          interpolateTotalWeight srcSize is360 pTLx pTLy pBRx pBRy) ∧
    (∀ px py : ℤ, 0 ≤ pBRx → 0 ≤ pBRy →
      (px : ℝ) < pBRx → pTLx < (px : ℝ) + 1 →
      (py : ℝ) < pBRy → pTLy < (py : ℝ) + 1 →
      0 ≤ px → px < srcSize.1 → 0 ≤ py → py < srcSize.2 →
      0 < interpolateTotalWeight srcSize is360 pTLx pTLy pBRx pBRy) ∧
    ((∀ iy ix : ℤ, 0 ≤ iy → iy < interpNy pTLy pBRy → 0 ≤ ix →
        ix < interpNx pTLx pBRx →
        ¬ interpCounted srcSize is360 pTLx pTLy pBRx pBRy iy ix) →
      interpolateTotalWeight srcSize is360 pTLx pTLy pBRx pBRy = 0) :=
  ⟨fun _ => rfl,
   fun px py h1 h2 h3 h4 h5 h6 h7 h8 h9 h10 =>
     interpTotalWeight_pos srcSize is360 pTLx pTLy pBRx pBRy px py h1 h2 h3 h4 h5 h6 h7
       h8 h9 h10,
   interpTotalWeight_eq_zero srcSize is360 pTLx pTLy pBRx pBRy⟩

/-- Witness for interpolatePixel_totalWeight_spec: on a 2 by 2 source, the
unit rectangle [0,1]x[0,1] gives positive totalWeight, while a rectangle
lying entirely below the image (rows 5 to 6) gives totalWeight zero. -/
theorem interpolatePixel_totalWeight_spec_witness :
    0 < interpolateTotalWeight ((2 : ℤ), (2 : ℤ)) False 0 0 1 1 ∧
      interpolateTotalWeight ((2 : ℤ), (2 : ℤ)) False 0 5 1 6 = 0 := by
  constructor
  · exact (interpolatePixel_totalWeight_spec ((2 : ℤ), (2 : ℤ)) False 0 0 1 1).2.1 0 0
      (by norm_num) (by norm_num) (by norm_num) (by norm_num) (by norm_num) (by norm_num)
      (by norm_num) (by norm_num) (by norm_num) (by norm_num)
  · apply (interpolatePixel_totalWeight_spec ((2 : ℤ), (2 : ℤ)) False 0 5 1 6).2.2
    intro iy ix hiy0 hiyn hix0 hixn hc
    have h5 : itrunc (5 : ℝ) = 5 := by
      rw [show (5 : ℝ) = ((5 : ℤ) : ℝ) by norm_num, itrunc_intCast]
    obtain ⟨hc1, hc2, hc3⟩ := hc
    rw [h5] at hc2
    omega

/-- C6: for a flat-color source picture, the composition picture -> panorama
sphere (mapPicToPanoSphere) followed by sphere -> display (the per-pixel
interpolatePixel pass of updateDisplayDataLoop) reproduces the same color at
a display pixel, for either projection type, provided the transformed pixel
rectangle stays inside the sphere buffer, its total weight is positive, and
every sphere pixel it reads with non-zero weight was written (not skipped)
with positive stage-one total weight. -/
theorem flatColor_roundTrip (s : Projector) (chan : ℤ → ℤ → ℝ) (c : ℝ) (x y : ℤ)
    (hsrc : ∀ a b : ℤ, chan a b = c)
    (h1 : 0 ≤ s.displayTrafoX x)
    (h2 : s.displayTrafoX x ≤ s.displayTrafoX (x + 1))
    (h3 : itrunc (s.displayTrafoX (x + 1)) < s.panoSphereSize.1)
    (hTW : 0 < interpolateTotalWeight s.panoSphereSize s.fovIs360Degrees
        (s.displayTrafoX x) (s.displayTrafoY y x) (s.displayTrafoX (x + 1))
        (s.displayTrafoY (y + 1) (x + 1)))
    (hreads : ∀ iy ix : ℤ, 0 ≤ iy →
      iy < interpNy (s.displayTrafoY y x) (s.displayTrafoY (y + 1) (x + 1)) →
      0 ≤ ix → ix < interpNx (s.displayTrafoX x) (s.displayTrafoX (x + 1)) →
      interpTermWeight s.panoSphereSize s.fovIs360Degrees (s.displayTrafoX x)
          (s.displayTrafoY y x) (s.displayTrafoX (x + 1))
          (s.displayTrafoY (y + 1) (x + 1)) iy ix ≠ 0 →
      ¬ s.sphereSkip (itrunc (s.displayTrafoY y x) + iy) ∧
        0 < interpolateTotalWeight s.picSize s.fovIs360Degrees
          (s.sphereTrafoX (interpReadX s.panoSphereSize.1 (s.displayTrafoX x) ix))
          (s.sphereTrafoY (itrunc (s.displayTrafoY y x) + iy))
          (s.sphereTrafoX (interpReadX s.panoSphereSize.1 (s.displayTrafoX x) ix + 1))
          (s.sphereTrafoY (itrunc (s.displayTrafoY y x) + iy + 1))) :
    s.displayPixel (s.mapPicToPanoSphereAt chan) x y = c := by
  rw [displayPixel_of_inRange s _ x y h1 h2 h3]
  apply interpolatePixelChannel_const _ _ _ _ _ _ _ _ hTW
  intro iy ix hiy0 hiyn hix0 hixn hw
  obtain ⟨hskip, hTW1⟩ := hreads iy ix hiy0 hiyn hix0 hixn hw
  unfold Projector.mapPicToPanoSphereAt
  rw [if_neg hskip]
  exact interpolatePixelChannel_const _ _ _ _ _ _ _ _ hTW1
    (fun _ _ _ _ _ _ _ => hsrc _ _)

lemma sqrt_four_eq : Real.sqrt 4 = 2 := by
  rw [show (4 : ℝ) = 2 ^ 2 by norm_num, Real.sqrt_sq (by norm_num : (0 : ℝ) ≤ 2)]

lemma sqrt_half_eq : Real.sqrt (1 / 2) = Real.sqrt 2 / 2 := by
  rw [show (1 / 2 : ℝ) = 2 / 4 by norm_num, Real.sqrt_div (by norm_num : (0 : ℝ) ≤ 2),
    sqrt_four_eq]

lemma half_div_sqrt : (1 / 2 : ℝ) / (Real.sqrt 2 / 2) = Real.sqrt 2 / 2 := by
  have hne : Real.sqrt 2 ≠ 0 := ne_of_gt (Real.sqrt_pos.mpr (by norm_num))
  field_simp

lemma one_div_sqrt2 : (1 : ℝ) / Real.sqrt 2 = Real.sqrt 2 / 2 := by
  have hne : Real.sqrt 2 ≠ 0 := ne_of_gt (Real.sqrt_pos.mpr (by norm_num))
  field_simp

lemma arctan_sqrt2_half_pos : 0 < arctan (Real.sqrt 2 / 2) := by
  rw [show (0 : ℝ) = arctan 0 from Real.arctan_zero.symm]
  apply Real.arctan_strictMono
  positivity

lemma arctan_sqrt2_half_lt : arctan (Real.sqrt 2 / 2) < π / 4 := by
  rw [show (π / 4 : ℝ) = arctan 1 from Real.arctan_one.symm]
  apply Real.arctan_strictMono
  have hss2 : Real.sqrt 2 * Real.sqrt 2 = 2 := Real.mul_self_sqrt (by norm_num)
  nlinarith [hss2, Real.sqrt_nonneg 2]

lemma sceneNon360_sizeInit : sceneNon360.panoSphereSizeInit = (1, 2) := by
  unfold Projector.panoSphereSizeInit
  have hfx : (sceneNon360.fovCentHor).1 = π := by rw [sceneNon360_fovCentHor]
  have hfy : (sceneNon360.fovCentHor).2 = π := by rw [sceneNon360_fovCentHor]
  rw [hfx, hfy]
  have hpx : (((sceneNon360.picSize).1 : ℤ) : ℝ) = 1 := by
    show ((1 : ℤ) : ℝ) = 1
    norm_num
  rw [hpx]
  rw [show (1 : ℝ) * π / π + 1 = ((2 : ℤ) : ℝ) by
    rw [one_mul, div_self Real.pi_ne_zero]
    norm_num]
  rw [itrunc_intCast]
  rfl

lemma sceneNon360_mapState :
    { sceneNon360 with panoSphereSize := sceneNon360.panoSphereSizeInit } = sceneNon360 := by
  rw [sceneNon360_sizeInit]
  rfl

lemma sceneNon360_overs : sceneNon360.mapSphereOversampling ≤ 1 / 2 := by
  unfold Projector.mapSphereOversampling
  rw [sceneNon360_mapState]
  rw [calcOversampling_eval sceneNon360 (by show (0 : ℝ) < 1 / 2; norm_num)
    (by show (0 : ℝ) < ((1 : ℤ) : ℝ); norm_num)]
  refine le_trans (min_le_left _ _) ?_
  have hw : (sceneNon360.displaySize.1 : ℝ) = 1 := by
    show ((1 : ℤ) : ℝ) = 1
    norm_num
  have hSX : (sceneNon360.panoSphereSize.1 : ℝ) = 1 := by
    show ((1 : ℤ) : ℝ) = 1
    norm_num
  have hfx : (sceneNon360.fovCentHor).1 = π := by rw [sceneNon360_fovCentHor]
  have hf : sceneNon360.f = (1 / 2 : ℝ) := rfl
  rw [hw, hSX, hfx, hf]
  rw [show ((1 : ℝ) - 1 / 2) / (1 / 2) = 1 by norm_num,
    show ((0 : ℝ) - 1 / 2) / (1 / 2) = -1 by norm_num]
  rw [Real.arctan_one, Real.arctan_neg, Real.arctan_one]
  rw [show (π / 4 - -(π / 4) : ℝ) = π / 2 by ring]
  rw [show (π / 2 * 1 / π : ℝ) = π / (2 * π) by ring]
  rw [show (π / (2 * π) : ℝ) = 1 / 2 by
    rw [div_eq_div_iff (by positivity : (0 : ℝ) < 2 * π).ne' (by norm_num : (2 : ℝ) ≠ 0)]
    ring]

lemma sceneNon360_notTarg :
    ¬ (sceneNon360.mapSphereOversampling > panoSphereRemapHystTargOvers) := by
  intro h
  have h2 := sceneNon360_overs
  unfold panoSphereRemapHystTargOvers at h
  linarith

lemma sceneNon360_scale : sceneNon360.mapSphereScaleFactor = 1 := by
  unfold Projector.mapSphereScaleFactor
  rw [if_neg sceneNon360_notTarg]

lemma sceneNon360_sizeFinal : sceneNon360.panoSphereSizeFinal = (1, 2) := by
  unfold Projector.panoSphereSizeFinal
  rw [if_neg sceneNon360_notTarg]
  exact sceneNon360_sizeInit

lemma sceneNon360_sphereX (a : ℤ) : sceneNon360.sphereTrafoX a = (a : ℝ) := by
  unfold Projector.sphereTrafoX
  rw [sceneNon360_scale, div_one]

lemma sceneNon360_sphereY (b : ℤ) : sceneNon360.sphereTrafoY b = (b : ℝ) - 1 / 2 := by
  show ((b : ℝ) - ((sceneNon360.panoSphereSizeFinal).2 : ℝ) / 2) /
      sceneNon360.mapSphereScaleFactor + sceneNon360.picHorizonY = (b : ℝ) - 1 / 2
  rw [sceneNon360_sizeFinal, sceneNon360_scale]
  unfold Projector.picHorizonY
  have h1 : (sceneNon360.picUncroppedSize.2 : ℝ) = 1 := by
    show ((1 : ℤ) : ℝ) = 1
    norm_num
  have h2 : (sceneNon360.picCropPosTL.2 : ℝ) = 0 := by
    show ((0 : ℤ) : ℝ) = 0
    norm_num
  rw [h1, h2]
  show ((b : ℝ) - ((2 : ℤ) : ℝ) / 2) / 1 + (1 / 2 - 0) = (b : ℝ) - 1 / 2
  push_cast
  ring

lemma sceneNon360_dX0 : sceneNon360.displayTrafoX 0 = 0 := by
  unfold Projector.displayTrafoX Projector.staticDisplayTrafoX
  have hw : (sceneNon360.displaySize.1 : ℝ) = 1 := by
    show ((1 : ℤ) : ℝ) = 1
    norm_num
  have hSX : (sceneNon360.panoSphereSize.1 : ℝ) = 1 := by
    show ((1 : ℤ) : ℝ) = 1
    norm_num
  have hfx : (sceneNon360.fovCentHor).1 = π := by rw [sceneNon360_fovCentHor]
  have hf : sceneNon360.f = (1 / 2 : ℝ) := rfl
  have hphi : sceneNon360.viewOffsetPhi = π / 4 := rfl
  rw [hw, hSX, hfx, hf, hphi]
  push_cast
  rw [atan2_pos_x _ _ (by norm_num : (0 : ℝ) < 1 / 2)]
  rw [show ((0 : ℝ) - 1 / 2) / (1 / 2) = -1 by norm_num]
  rw [Real.arctan_neg, Real.arctan_one]
  ring

lemma sceneNon360_dX1 : sceneNon360.displayTrafoX 1 = 1 / 2 := by
  unfold Projector.displayTrafoX Projector.staticDisplayTrafoX
  have hw : (sceneNon360.displaySize.1 : ℝ) = 1 := by
    show ((1 : ℤ) : ℝ) = 1
    norm_num
  have hSX : (sceneNon360.panoSphereSize.1 : ℝ) = 1 := by
    show ((1 : ℤ) : ℝ) = 1
    norm_num
  have hfx : (sceneNon360.fovCentHor).1 = π := by rw [sceneNon360_fovCentHor]
  have hf : sceneNon360.f = (1 / 2 : ℝ) := rfl
  have hphi : sceneNon360.viewOffsetPhi = π / 4 := rfl
  rw [hw, hSX, hfx, hf, hphi]
  push_cast
  rw [atan2_pos_x _ _ (by norm_num : (0 : ℝ) < 1 / 2)]
  rw [show ((1 : ℝ) - 1 / 2) / (1 / 2) = 1 by norm_num]
  rw [Real.arctan_one]
  rw [show (π / 4 + π / 4 : ℝ) * 1 / π = π / (2 * π) by ring]
  rw [div_eq_div_iff (by positivity : (0 : ℝ) < 2 * π).ne' (by norm_num : (2 : ℝ) ≠ 0)]
  ring

lemma sceneNon360_dY00 :
    sceneNon360.displayTrafoY 0 0 = 1 - arctan (Real.sqrt 2 / 2) * 2 / π := by
  unfold Projector.displayTrafoY Projector.staticDisplayTrafoY
  have hw : (sceneNon360.displaySize.1 : ℝ) = 1 := by
    show ((1 : ℤ) : ℝ) = 1
    norm_num
  have hh : (sceneNon360.displaySize.2 : ℝ) = 1 := by
    show ((1 : ℤ) : ℝ) = 1
    norm_num
  have hSY : (sceneNon360.panoSphereSize.2 : ℝ) = 2 := by
    show ((2 : ℤ) : ℝ) = 2
    norm_num
  have hfy : (sceneNon360.fovCentHor).2 = π := by rw [sceneNon360_fovCentHor]
  have hf : sceneNon360.f = (1 / 2 : ℝ) := rfl
  have hth : sceneNon360.viewOffsetTheta = 0 := rfl
  rw [hw, hh, hSY, hfy, hf, hth]
  push_cast
  rw [sin_atan2_neg_x (by norm_num) (by norm_num : (0 : ℝ) - 1 / 2 < 0)]
  rw [show ((0 : ℝ) - 1 / 2) ^ 2 + (1 / 2) ^ 2 = 1 / 2 by norm_num]
  rw [sqrt_half_eq]
  rw [show ((0 : ℝ) - 1 / 2) / (1 / 2) = -1 by norm_num]
  rw [half_div_sqrt]
  rw [show (-1 : ℝ) * (Real.sqrt 2 / 2) = -(Real.sqrt 2 / 2) by ring]
  rw [Real.arctan_neg]
  ring

lemma sceneNon360_dY11 :
    sceneNon360.displayTrafoY 1 1 = 1 + arctan (Real.sqrt 2 / 2) * 2 / π := by
  unfold Projector.displayTrafoY Projector.staticDisplayTrafoY
  have hw : (sceneNon360.displaySize.1 : ℝ) = 1 := by
    show ((1 : ℤ) : ℝ) = 1
    norm_num
  have hh : (sceneNon360.displaySize.2 : ℝ) = 1 := by
    show ((1 : ℤ) : ℝ) = 1
    norm_num
  have hSY : (sceneNon360.panoSphereSize.2 : ℝ) = 2 := by
    show ((2 : ℤ) : ℝ) = 2
    norm_num
  have hfy : (sceneNon360.fovCentHor).2 = π := by rw [sceneNon360_fovCentHor]
  have hf : sceneNon360.f = (1 / 2 : ℝ) := rfl
  have hth : sceneNon360.viewOffsetTheta = 0 := rfl
  rw [hw, hh, hSY, hfy, hf, hth]
  push_cast
  rw [atan2_pos_x _ _ (by norm_num : (0 : ℝ) < 1 - 1 / 2)]
  rw [show ((1 : ℝ) / 2) / (1 - 1 / 2) = 1 by norm_num]
  rw [Real.sin_arctan]
  rw [show (1 : ℝ) + 1 ^ 2 = 2 by norm_num]
  rw [one_div_sqrt2]
  rw [show ((1 : ℝ) - 1 / 2) / (1 / 2) = 1 by norm_num, one_mul]
  ring

lemma itrunc_tLy : itrunc (1 - arctan (Real.sqrt 2 / 2) * 2 / π) = 0 := by
  have hpi := Real.pi_pos
  have h0 := arctan_sqrt2_half_pos
  have h4 := arctan_sqrt2_half_lt
  have hb1 : (0 : ℝ) < arctan (Real.sqrt 2 / 2) * 2 / π := by positivity
  have hb2 : arctan (Real.sqrt 2 / 2) * 2 / π < 1 / 2 := by
    rw [div_lt_iff hpi]
    nlinarith
  rw [itrunc_of_nonneg (by linarith)]
  apply Int.floor_eq_zero_iff.mpr
  rw [Set.mem_Ico]
  constructor
  · linarith
  · linarith

lemma itrunc_bRy : itrunc (1 + arctan (Real.sqrt 2 / 2) * 2 / π) = 1 := by
  have hpi := Real.pi_pos
  have h0 := arctan_sqrt2_half_pos
  have h4 := arctan_sqrt2_half_lt
  have hb1 : (0 : ℝ) < arctan (Real.sqrt 2 / 2) * 2 / π := by positivity
  have hb2 : arctan (Real.sqrt 2 / 2) * 2 / π < 1 / 2 := by
    rw [div_lt_iff hpi]
    nlinarith
  rw [itrunc_of_nonneg (by linarith)]
  rw [Int.floor_eq_iff]
  constructor
  · push_cast
    linarith
  · push_cast
    linarith

lemma itrunc_half : itrunc ((1 : ℝ) / 2) = 0 := by
  rw [itrunc_of_nonneg (by norm_num)]
  apply Int.floor_eq_zero_iff.mpr
  rw [Set.mem_Ico]
  constructor
  · norm_num
  · norm_num

/-- Witness for flatColor_roundTrip: on sceneNon360 (equirectangular, FOV
(pi, pi), display 1 by 1, sphere 1 by 2, phi = pi/4, f = 1/2) the display
pixel (0,0) of a flat source of value 200 is 200 again. -/
theorem flatColor_roundTrip_witness :
    sceneNon360.displayPixel (sceneNon360.mapPicToPanoSphereAt fun _ _ => 200) 0 0 =
      200 := by
  have hpi := Real.pi_pos
  have hA0 := arctan_sqrt2_half_pos
  have hA4 := arctan_sqrt2_half_lt
  have hb2 : arctan (Real.sqrt 2 / 2) * 2 / π < 1 / 2 := by
    rw [div_lt_iff hpi]
    nlinarith
  have hb1 : (0 : ℝ) < arctan (Real.sqrt 2 / 2) * 2 / π := by positivity
  refine flatColor_roundTrip sceneNon360 (fun _ _ => 200) 200 0 0 (fun _ _ => rfl)
    ?_ ?_ ?_ ?_ ?_
  · rw [sceneNon360_dX0]
  · rw [show ((0 : ℤ) + 1) = (1 : ℤ) by norm_num]
    rw [sceneNon360_dX0, sceneNon360_dX1]
    norm_num
  · rw [show ((0 : ℤ) + 1) = (1 : ℤ) by norm_num]
    rw [sceneNon360_dX1, itrunc_half]
    show (0 : ℤ) < 1
    norm_num
  · rw [show ((0 : ℤ) + 1) = (1 : ℤ) by norm_num]
    rw [sceneNon360_dX0, sceneNon360_dX1, sceneNon360_dY00, sceneNon360_dY11]
    exact interpTotalWeight_pos _ _ _ _ _ _ 0 0
      (by norm_num)
      (by nlinarith)
      (by push_cast; norm_num)
      (by push_cast; norm_num)
      (by push_cast; nlinarith)
      (by push_cast; nlinarith)
      (by norm_num)
      (by show (0 : ℤ) < 1; norm_num)
      (by norm_num)
      (by show (0 : ℤ) < 2; norm_num)
  · rw [show ((0 : ℤ) + 1) = (1 : ℤ) by norm_num]
    rw [sceneNon360_dX0, sceneNon360_dX1, sceneNon360_dY00, sceneNon360_dY11]
    intro iy ix hiy0 hiyn hix0 hixn hw
    unfold interpNy at hiyn
    rw [itrunc_tLy, itrunc_bRy] at hiyn
    unfold interpNx at hixn
    rw [itrunc_zero, itrunc_half] at hixn
    have hix : ix = 0 := by omega
    subst hix
    have hiy : iy = 0 ∨ iy = 1 := by omega
    have hread : interpReadX sceneNon360.panoSphereSize.1 (0 : ℝ) 0 = 0 := by
      unfold interpReadX
      rw [itrunc_zero]
      decide
    rw [hread, itrunc_tLy]
    simp only [zero_add]
    rcases hiy with h | h
    · subst h
      constructor
      · intro hsk
        unfold Projector.sphereSkip at hsk
        rcases hsk with hsk | hsk
        · rw [sceneNon360_sphereY (0 + 1)] at hsk
          push_cast at hsk
          norm_num at hsk
        · rw [sceneNon360_sphereY 0] at hsk
          have hpy : ((sceneNon360.picSize).2 : ℝ) = 1 := by
            show ((1 : ℤ) : ℝ) = 1
            norm_num
          rw [hpy] at hsk
          push_cast at hsk
          norm_num at hsk
      · rw [sceneNon360_sphereX 0, sceneNon360_sphereX 1, sceneNon360_sphereY 0,
          sceneNon360_sphereY (0 + 1)]
        push_cast
        exact interpTotalWeight_pos _ _ _ _ _ _ 0 0
          (by norm_num)
          (by norm_num)
          (by norm_num)
          (by norm_num)
          (by norm_num)
          (by norm_num)
          (by norm_num)
          (by show (0 : ℤ) < 1; norm_num)
          (by norm_num)
          (by show (0 : ℤ) < 1; norm_num)
    · subst h
      constructor
      · intro hsk
        unfold Projector.sphereSkip at hsk
        rcases hsk with hsk | hsk
        · rw [sceneNon360_sphereY (1 + 1)] at hsk
          push_cast at hsk
          norm_num at hsk
        · rw [sceneNon360_sphereY 1] at hsk
          have hpy : ((sceneNon360.picSize).2 : ℝ) = 1 := by
            show ((1 : ℤ) : ℝ) = 1
            norm_num
          rw [hpy] at hsk
          push_cast at hsk
          norm_num at hsk
      · rw [sceneNon360_sphereX 0, sceneNon360_sphereX 1, sceneNon360_sphereY 1,
          sceneNon360_sphereY (1 + 1)]
        push_cast
        exact interpTotalWeight_pos _ _ _ _ _ _ 0 0
          (by norm_num)
          (by norm_num)
          (by norm_num)
          (by norm_num)
          (by norm_num)
          (by norm_num)
          (by norm_num)
          (by show (0 : ℤ) < 1; norm_num)
          (by norm_num)
          (by show (0 : ℤ) < 1; norm_num)

end SPNV










